import Mathlib

/-!
Verification of the rigid-body (composite particle) force-reduction and
state-propagation kernels of `src/hoomd/md/ForceCompositeGPU.cu`
(`gpu_rigid_force_sliding_kernel`, `gpu_rigid_virial_sliding_kernel`,
`gpu_update_composite_kernel` and their host wrappers `gpu_rigid_force`,
`gpu_rigid_virial`).

The embedding follows the CUDA source per body and per particle index.
`Scalar` is modelled by `ℚ` (exact arithmetic: the specification's claims are
about exact sums, and all backends must agree up to floating-point reduction
order).  Unsigned 32-bit arithmetic on tags is modelled by `usub32`.  Device
arrays are total functions from indices; a kernel pass is a pure state
transformer.  The sliding-window gather and the in-window binary-tree
reduction are modelled structurally (`treeCombine` mirrors the
`offset = window_size >> 1; while (offset > 0) ... offset >>= 1` loop).
-/

set_option synthInstance.maxSize 512
set_option synthInstance.maxHeartbeats 800000

namespace ForceCompositeGPU

/-- Component type of `Scalar3` vectors (`ℚ` models exact `Scalar` values). -/
@[ext]
structure Vec3 where
  x : ℚ
  y : ℚ
  z : ℚ
  deriving DecidableEq, Repr

/-- `Scalar4` values: force (x,y,z) with energy in `w`, torque with padding. -/
@[ext]
structure Vec4 where
  x : ℚ
  y : ℚ
  z : ℚ
  w : ℚ
  deriving DecidableEq, Repr

/-- `int3` image flags. -/
@[ext]
structure Int3 where
  x : ℤ
  y : ℤ
  z : ℤ
  deriving DecidableEq, Repr

instance : Zero Vec3 := ⟨⟨0, 0, 0⟩⟩
instance : Add Vec3 := ⟨fun a b => ⟨a.x + b.x, a.y + b.y, a.z + b.z⟩⟩

@[simp] lemma Vec3.zero3_x : (0 : Vec3).x = 0 := rfl
@[simp] lemma Vec3.zero3_y : (0 : Vec3).y = 0 := rfl
@[simp] lemma Vec3.zero3_z : (0 : Vec3).z = 0 := rfl
@[simp] lemma Vec3.add3_x (a b : Vec3) : (a + b).x = a.x + b.x := rfl
@[simp] lemma Vec3.add3_y (a b : Vec3) : (a + b).y = a.y + b.y := rfl
@[simp] lemma Vec3.add3_z (a b : Vec3) : (a + b).z = a.z + b.z := rfl

instance : AddCommMonoid Vec3 where
  add_assoc a b c := by ext <;> simp <;> ring
  zero_add a := by ext <;> simp
  add_zero a := by ext <;> simp
  add_comm a b := by ext <;> simp <;> ring
  nsmul := nsmulRec

instance : Zero Vec4 := ⟨⟨0, 0, 0, 0⟩⟩
instance : Add Vec4 := ⟨fun a b => ⟨a.x + b.x, a.y + b.y, a.z + b.z, a.w + b.w⟩⟩

@[simp] lemma Vec4.zero4_x : (0 : Vec4).x = 0 := rfl
@[simp] lemma Vec4.zero4_y : (0 : Vec4).y = 0 := rfl
@[simp] lemma Vec4.zero4_z : (0 : Vec4).z = 0 := rfl
@[simp] lemma Vec4.zero4_w : (0 : Vec4).w = 0 := rfl
@[simp] lemma Vec4.add4_x (a b : Vec4) : (a + b).x = a.x + b.x := rfl
@[simp] lemma Vec4.add4_y (a b : Vec4) : (a + b).y = a.y + b.y := rfl
@[simp] lemma Vec4.add4_z (a b : Vec4) : (a + b).z = a.z + b.z := rfl
@[simp] lemma Vec4.add4_w (a b : Vec4) : (a + b).w = a.w + b.w := rfl

instance : AddCommMonoid Vec4 where
  add_assoc a b c := by ext <;> simp <;> ring
  zero_add a := by ext <;> simp
  add_zero a := by ext <;> simp
  add_comm a b := by ext <;> simp <;> ring
  nsmul := nsmulRec

/-- The six independent symmetric virial tensor components
(xx, xy, xz, yy, yz, zz), matching the six per-thread accumulators
`sum_virial_xx .. sum_virial_zz` of `gpu_rigid_virial_sliding_kernel`. -/
@[ext]
structure Virial6 where
  xx : ℚ
  xy : ℚ
  xz : ℚ
  yy : ℚ
  yz : ℚ
  zz : ℚ
  deriving DecidableEq, Repr

instance : Zero Virial6 := ⟨⟨0, 0, 0, 0, 0, 0⟩⟩
instance : Add Virial6 :=
  ⟨fun a b => ⟨a.xx + b.xx, a.xy + b.xy, a.xz + b.xz, a.yy + b.yy, a.yz + b.yz, a.zz + b.zz⟩⟩

@[simp] lemma Virial6.zero_xx : (0 : Virial6).xx = 0 := rfl
@[simp] lemma Virial6.zero_xy : (0 : Virial6).xy = 0 := rfl
@[simp] lemma Virial6.zero_xz : (0 : Virial6).xz = 0 := rfl
@[simp] lemma Virial6.zero_yy : (0 : Virial6).yy = 0 := rfl
@[simp] lemma Virial6.zero_yz : (0 : Virial6).yz = 0 := rfl
@[simp] lemma Virial6.zero_zz : (0 : Virial6).zz = 0 := rfl
@[simp] lemma Virial6.add_xx (a b : Virial6) : (a + b).xx = a.xx + b.xx := rfl
@[simp] lemma Virial6.add_xy (a b : Virial6) : (a + b).xy = a.xy + b.xy := rfl
@[simp] lemma Virial6.add_xz (a b : Virial6) : (a + b).xz = a.xz + b.xz := rfl
@[simp] lemma Virial6.add_yy (a b : Virial6) : (a + b).yy = a.yy + b.yy := rfl
@[simp] lemma Virial6.add_yz (a b : Virial6) : (a + b).yz = a.yz + b.yz := rfl
@[simp] lemma Virial6.add_zz (a b : Virial6) : (a + b).zz = a.zz + b.zz := rfl

instance : AddCommMonoid Virial6 where
  add_assoc a b c := by ext <;> simp <;> ring
  zero_add a := by ext <;> simp
  add_zero a := by ext <;> simp
  add_comm a b := by ext <;> simp <;> ring
  nsmul := nsmulRec

/-- Scalar multiplication on `Vec3` (used by the quaternion rotation formula). -/
def smul3 (c : ℚ) (v : Vec3) : Vec3 := ⟨c * v.x, c * v.y, c * v.z⟩

/-- Cross product, as in `cross(vec3, vec3)` of the vector math header. -/
def cross (a b : Vec3) : Vec3 :=
  ⟨a.y * b.z - a.z * b.y, a.z * b.x - a.x * b.z, a.x * b.y - a.y * b.x⟩

/-- Dot product of two `Vec3`. -/
def dot3 (a b : Vec3) : ℚ := a.x * b.x + a.y * b.y + a.z * b.z

/-- Quaternion with scalar part `s` and vector part `v`, as `quat<Scalar>`. -/
@[ext]
structure Quat where
  s : ℚ
  v : Vec3
  deriving DecidableEq, Repr

/-- Modelled from the spec: quaternion rotation `rotate(quat, vec3)` of
`hoomd/VectorMath.h` (header not included in the sampled sources); the
spec's "rotate `local_pos` by the central's current orientation" is the
standard quaternion rotation `b + 2 a.v × (a.v × b + a.s b)`. -/
def rotate (a : Quat) (b : Vec3) : Vec3 :=
  b + cross (smul3 2 a.v) (cross a.v b + smul3 a.s b)

/-- Modelled from the spec: quaternion product `quat * quat` of
`hoomd/VectorMath.h` (header not included in the sampled sources), used for
"set `orientation(i) = orientation(c) * local_orient`". -/
def quatMul (a b : Quat) : Quat :=
  ⟨a.s * b.s - dot3 a.v b.v, smul3 a.s b.v + smul3 b.s a.v + cross a.v b.v⟩

/-- The identity quaternion (no rotation). -/
def quatOne : Quat := ⟨1, 0⟩

@[simp] lemma cross_zero_right (a : Vec3) : cross a 0 = 0 := by
  simp [cross]; rfl

@[simp] lemma cross_zero_left (a : Vec3) : cross 0 a = 0 := by
  simp [cross]; rfl

@[simp] lemma smul3_zero (c : ℚ) : smul3 c 0 = 0 := by
  simp [smul3]; rfl

/-- Rotating by the identity quaternion returns the vector unchanged. -/
@[simp] lemma rotate_one (b : Vec3) : rotate quatOne b = b := by
  simp [rotate, quatOne]

/-- Unsigned 32-bit subtraction `a - b` (for `a`, `b < 2^32`), as performed on
`unsigned int` tags by `tag - central_tag - 1`. -/
def usub32 (a b : Nat) : Nat := (a + 4294967296 - b % 4294967296) % 4294967296

/-- `NO_BODY` sentinel. Modelled from the spec: the `NO_BODY` constant of
`hoomd/ParticleData.cuh` (not included in the sampled sources) is the
all-ones 32-bit sentinel marking free particles. -/
def NO_BODY : Nat := 4294967295

/-- `NOT_LOCAL` sentinel. Modelled from the spec: the `NOT_LOCAL` constant of
`hoomd/ParticleData.cuh` (not included in the sampled sources) is the
all-ones 32-bit sentinel returned by the reverse-tag lookup for a tag with no
local or ghost storage index. -/
def NOT_LOCAL : Nat := 4294967295

section Tree

variable {V : Type*}

/-- One fuelled step of the in-window tree reduction: the loop body
`if ((threadIdx.x & thread_mask) < offset) arr[t] += arr[t + offset]`,
iterated with `offset` halving until zero.  `fuel` is a structural
termination device; `treeCombine` supplies enough fuel. -/
def treeAux [Add V] : Nat → Nat → (Nat → V) → (Nat → V)
  | 0, _, arr => arr
  | fuel + 1, offset, arr =>
    if offset = 0 then arr
    else
      treeAux fuel (offset / 2)
        (fun t => if t < offset then arr t + arr (t + offset) else arr t)

/-- The tree-combine phase of the sliding-window kernels: starting from
`offset = window_size >> 1`, halve the active span each round until one lane
holds the window total. -/
def treeCombine [Add V] (offset : Nat) (arr : Nat → V) : Nat → V :=
  treeAux offset offset arr

lemma treeAux_fuel_succ [Add V] :
    ∀ (fuel offset : Nat) (arr : Nat → V), offset ≤ fuel →
      treeAux (fuel + 1) offset arr = treeAux fuel offset arr := by
  intro fuel
  induction fuel with
  | zero =>
    intro offset arr h
    interval_cases offset
    simp [treeAux]
  | succ f ih =>
    intro offset arr h
    by_cases h0 : offset = 0
    · simp [treeAux, h0]
    · have h2 : offset / 2 ≤ f := by omega
      calc treeAux (f + 1 + 1) offset arr
          = treeAux (f + 1) (offset / 2)
              (fun t => if t < offset then arr t + arr (t + offset) else arr t) := by
            simp [treeAux, h0]
        _ = treeAux f (offset / 2)
              (fun t => if t < offset then arr t + arr (t + offset) else arr t) :=
            ih _ _ h2
        _ = treeAux (f + 1) offset arr := by
            simp [treeAux, h0]

lemma treeAux_fuel_ge [Add V] (fuel offset : Nat) (arr : Nat → V)
    (h : offset ≤ fuel) : treeAux fuel offset arr = treeCombine offset arr := by
  unfold treeCombine
  induction fuel with
  | zero =>
    interval_cases offset
    rfl
  | succ f ih =>
    rcases Nat.lt_or_ge offset (f + 1) with hlt | hge
    · have h1 : offset ≤ f := by omega
      rw [treeAux_fuel_succ f offset arr h1]
      exact ih h1
    · have : offset = f + 1 := by omega
      subst this
      rfl

/-- Unfolding one round of the tree combine. -/
lemma treeCombine_step [Add V] (offset : Nat) (arr : Nat → V) (h : offset ≠ 0) :
    treeCombine offset arr =
      treeCombine (offset / 2)
        (fun t => if t < offset then arr t + arr (t + offset) else arr t) := by
  obtain ⟨m, rfl⟩ : ∃ m, offset = m + 1 := ⟨offset - 1, by omega⟩
  show treeAux (m + 1) (m + 1) arr = _
  rw [treeAux]
  simp only [h, if_false]
  exact treeAux_fuel_ge m ((m + 1) / 2) _ (by omega)

lemma treeCombine_zero_fun [Add V] (z : V) (hz : z + z = z) :
    ∀ offset : Nat, treeCombine offset (fun _ => z) = fun _ => z := by
  intro offset
  induction offset using Nat.strong_induction_on with
  | _ offset ih =>
    by_cases h0 : offset = 0
    · subst h0; rfl
    · rw [treeCombine_step offset _ h0]
      have harr : (fun t => if t < offset then z + z else z) = fun _ => (z : V) := by
        funext t
        by_cases ht : t < offset <;> simp [ht, hz]
      rw [harr]
      exact ih (offset / 2) (by omega)

/-- Splitting a sum over `range (m + n)`. -/
lemma sum_range_add {M : Type*} [AddCommMonoid M] (f : Nat → M) (m n : Nat) :
    (∑ k in Finset.range (m + n), f k) =
      (∑ k in Finset.range m, f k) + ∑ k in Finset.range n, f (m + k) := by
  induction n with
  | zero => simp
  | succ n ih =>
    rw [← Nat.add_assoc, Finset.sum_range_succ, ih, Finset.sum_range_succ, add_assoc]

/-- The binary-tree reduction with initial offset `2^e / 2` over a window of
`2^e` lanes leaves the window total in lane 0: this is the partial-reduction
correctness of the sliding-window kernels for power-of-two window sizes. -/
lemma treeCombine_pow_sum {M : Type*} [AddCommMonoid M] :
    ∀ (e : Nat) (arr : Nat → M),
      treeCombine (2 ^ e / 2) arr 0 = ∑ t in Finset.range (2 ^ e), arr t := by
  intro e
  induction e with
  | zero =>
    intro arr
    simp [treeCombine, treeAux]
  | succ e ih =>
    intro arr
    have hne : (2 : Nat) ^ e ≠ 0 := by positivity
    have hpow : 2 ^ (e + 1) / 2 = 2 ^ e := by
      rw [pow_succ]
      omega
    rw [hpow, treeCombine_step (2 ^ e) arr hne, ih]
    have hsplit : (2 : Nat) ^ (e + 1) = 2 ^ e + 2 ^ e := by
      rw [pow_succ]; omega
    rw [hsplit, sum_range_add]
    have hcongr :
        (∑ t in Finset.range (2 ^ e),
            (fun t => if t < 2 ^ e then arr t + arr (t + 2 ^ e) else arr t) t) =
          (∑ t in Finset.range (2 ^ e), arr t) +
            ∑ t in Finset.range (2 ^ e), arr (t + 2 ^ e) := by
      rw [← Finset.sum_add_distrib]
      refine Finset.sum_congr rfl fun t ht => ?_
      have : t < 2 ^ e := Finset.mem_range.mp ht
      simp [this]
    rw [hcongr]
    refine congrArg _ (Finset.sum_congr rfl fun t _ => ?_)
    rw [Nat.add_comm]

end Tree

/-- Particle position plus type, as packed into a `Scalar4 postype`
(`xyz` position, `w` holding the type id via `__scalar_as_int`). -/
@[ext]
structure PosType where
  pos : Vec3
  typ : Nat
  deriving DecidableEq, Repr

/-- Read-only inputs of `gpu_rigid_force_sliding_kernel` (and of the virial
kernel, which shares them): molecule table, tag arrays, particle snapshot,
body template, counts and launch configuration.  The two `Index2D` indexers
are kept abstract as flattening functions.  `d_rtag` and
`d_body_orientation` are passed by the kernel signature but unused by it. -/
structure ForceArgs where
  d_molecule_len : Nat → Nat
  d_molecule_list : Nat → Nat
  d_tag : Nat → Nat
  d_rtag : Nat → Nat
  molecule_indexer : Nat → Nat → Nat
  d_postype : Nat → PosType
  d_orientation : Nat → Quat
  body_indexer : Nat → Nat → Nat
  d_body_pos : Nat → Vec3
  d_body_orientation : Nat → Quat
  n_mol : Nat
  N : Nat
  window_size : Nat
  zero_force : Bool

/-- Mutable arrays touched by the force kernel: the force/torque output
slots and the per-particle net force/torque accumulators. -/
structure ForceState where
  d_force : Nat → Vec4
  d_torque : Nat → Vec4
  d_net_force : Nat → Vec4
  d_net_torque : Nat → Vec4

namespace ForceArgs

/-- `d_molecule_list[molecule_indexer(mol, k)]`: storage index of member `k`
of body `mol` (slot 0 is the central particle). -/
def member (A : ForceArgs) (mol k : Nat) : Nat :=
  A.d_molecule_list (A.molecule_indexer mol k)

/-- `central_idx[m] = d_molecule_list[molecule_indexer(group_idx, 0)]`. -/
def central_idx (A : ForceArgs) (mol : Nat) : Nat := A.member mol 0

/-- `body_type[m] = __scalar_as_int(d_postype[central_idx[m]].w)`. -/
def body_type (A : ForceArgs) (mol : Nat) : Nat :=
  (A.d_postype (A.central_idx mol)).typ

/-- `body_orientation[m] = d_orientation[central_idx[m]]`. -/
def body_orientation (A : ForceArgs) (mol : Nat) : Quat :=
  A.d_orientation (A.central_idx mol)

/-- `central_tag = d_tag[central_idx[m]]`. -/
def central_tag (A : ForceArgs) (mol : Nat) : Nat :=
  A.d_tag (A.central_idx mol)

/-- `mol_len = d_molecule_len[mol_idx[m]]`. -/
def mol_len (A : ForceArgs) (mol : Nat) : Nat := A.d_molecule_len mol

/-- `n_windows = mol_len / window_size + 1`. -/
def n_windows (A : ForceArgs) (mol : Nat) : Nat :=
  A.mol_len mol / A.window_size + 1

/-- `local_idx = tag - central_tag - 1` in unsigned 32-bit arithmetic. -/
def local_idx (A : ForceArgs) (mol k : Nat) : Nat :=
  usub32 (usub32 (A.d_tag (A.member mol k)) (A.central_tag mol)) 1

/-- `ri = rotate(quat(body_orientation[m]), particle_pos)`: the member's
template offset rotated into space frame by the body's current central
orientation. -/
def rel_pos (A : ForceArgs) (mol k : Nat) : Vec3 :=
  rotate (A.body_orientation mol)
    (A.d_body_pos (A.body_indexer (A.body_type mol) (A.local_idx mol k)))

/-- Member slot `k` contributes iff `k < mol_len` and it is not the central
particle (`pidx != central_idx[m]`). -/
def contributes (A : ForceArgs) (mol k : Nat) : Prop :=
  k < A.mol_len mol ∧ A.member mol k ≠ A.central_idx mol

instance (A : ForceArgs) (mol k : Nat) : Decidable (A.contributes mol k) := by
  unfold contributes; infer_instance

/-- Force (and energy, in `w`) gathered from member slot `k`:
`sum_force += fi` guarded by the window bound and the central test. -/
def forceContrib (A : ForceArgs) (st : ForceState) (mol k : Nat) : Vec4 :=
  if A.contributes mol k then st.d_net_force (A.member mol k) else 0

/-- Torque gathered from member slot `k`:
`sum_torque += ti + cross(ri, fi)`. -/
def torqueContrib (A : ForceArgs) (st : ForceState) (mol k : Nat) : Vec3 :=
  if A.contributes mol k then
    let f := st.d_net_force (A.member mol k)
    let t := st.d_net_torque (A.member mol k)
    (⟨t.x, t.y, t.z⟩ : Vec3) + cross (A.rel_pos mol k) ⟨f.x, f.y, f.z⟩
  else 0

/-- The per-lane partial force sum after the sliding-window gather: lane `t`
strides over member slots `start * window_size + t`; a lane whose body's
central resolves outside the valid local range (`central_idx[m] >= N`) never
gathers and keeps its zero initializer. -/
def laneForce (A : ForceArgs) (st : ForceState) (mol t : Nat) : Vec4 :=
  if A.central_idx mol < A.N then
    ∑ s in Finset.range (A.n_windows mol), A.forceContrib st mol (s * A.window_size + t)
  else 0

/-- The per-lane partial torque sum after the gather phase. -/
def laneTorque (A : ForceArgs) (st : ForceState) (mol t : Nat) : Vec3 :=
  if A.central_idx mol < A.N then
    ∑ s in Finset.range (A.n_windows mol), A.torqueContrib st mol (s * A.window_size + t)
  else 0

/-- Total body force published by lane 0 after the tree reduction. -/
def bodyForceTotal (A : ForceArgs) (st : ForceState) (mol : Nat) : Vec4 :=
  treeCombine (A.window_size / 2) (A.laneForce st mol) 0

/-- Total body torque published by lane 0 after the tree reduction. -/
def bodyTorqueTotal (A : ForceArgs) (st : ForceState) (mol : Nat) : Vec3 :=
  treeCombine (A.window_size / 2) (A.laneTorque st mol) 0

/-- Storage index `i` is a constituent folded by body `mol`'s gather loop:
some window pass (`start < n_windows`, lane `t < window_size`) reaches a
member slot `k = start * window_size + t` with `k < mol_len` that is not the
central particle and stores `i`. -/
def folded (A : ForceArgs) (mol i : Nat) : Prop :=
  ∃ s, s < A.n_windows mol ∧ ∃ t, t < A.window_size ∧
    A.contributes mol (s * A.window_size + t) ∧ A.member mol (s * A.window_size + t) = i

instance (A : ForceArgs) (mol i : Nat) : Decidable (A.folded mol i) := by
  unfold folded; infer_instance

end ForceArgs

/-- The action of one body's thread group in `gpu_rigid_force_sliding_kernel`:
if the group index is a real body (`mol_idx[m] != NO_BODY`), the gather loop
runs only when `central_idx[m] < N`, zeroing each folded constituent's net
force (when `zero_force`) and net torque; the write-out at the end
(`(threadIdx.x & thread_mask) == 0 && mol_idx[m] != NO_BODY`) stores the
tree-reduced totals to the central particle's force and torque slots with no
further range check on `central_idx[m]`. -/
def rigid_force_body (A : ForceArgs) (st : ForceState) (mol : Nat) : ForceState :=
  if mol < A.n_mol then
    { d_force := fun i =>
        if i = A.central_idx mol then A.bodyForceTotal st mol else st.d_force i
      d_torque := fun i =>
        if i = A.central_idx mol then
          let t := A.bodyTorqueTotal st mol
          ⟨t.x, t.y, t.z, 0⟩
        else st.d_torque i
      d_net_force := fun i =>
        if A.central_idx mol < A.N ∧ A.zero_force = true ∧ A.folded mol i then 0
        else st.d_net_force i
      d_net_torque := fun i =>
        if A.central_idx mol < A.N ∧ A.folded mol i then 0
        else st.d_net_torque i }
  else st

/-- The full `gpu_rigid_force` pass: `cudaMemset` clears the `N` force and
torque output slots, then the sliding kernel processes every body. -/
def gpu_rigid_force (A : ForceArgs) (st : ForceState) : ForceState :=
  let st0 : ForceState :=
    { st with
      d_force := fun i => if i < A.N then 0 else st.d_force i
      d_torque := fun i => if i < A.N then 0 else st.d_torque i }
  (List.range A.n_mol).foldl (rigid_force_body A) st0

/-- Read-only inputs of `gpu_rigid_virial_sliding_kernel`: the same molecule
and snapshot tables as the force kernel, plus the two virial row pitches. -/
structure VirialArgs where
  d_molecule_len : Nat → Nat
  d_molecule_list : Nat → Nat
  d_tag : Nat → Nat
  d_rtag : Nat → Nat
  molecule_indexer : Nat → Nat → Nat
  d_postype : Nat → PosType
  d_orientation : Nat → Quat
  body_indexer : Nat → Nat → Nat
  d_body_pos : Nat → Vec3
  d_body_orientation : Nat → Quat
  n_mol : Nat
  N : Nat
  net_virial_pitch : Nat
  virial_pitch : Nat
  window_size : Nat

/-- Mutable arrays touched by the virial kernel: the flat
`6 * virial_pitch` output array, the flat net-virial accumulator, and the
net force (which it also zeroes). -/
structure VirialState where
  d_virial : Nat → ℚ
  d_net_force : Nat → Vec4
  d_net_virial : Nat → ℚ

namespace VirialArgs

/-- `d_molecule_list[molecule_indexer(mol, k)]`. -/
def member (A : VirialArgs) (mol k : Nat) : Nat :=
  A.d_molecule_list (A.molecule_indexer mol k)

/-- `central_idx[m] = d_molecule_list[molecule_indexer(group_idx, 0)]`. -/
def central_idx (A : VirialArgs) (mol : Nat) : Nat := A.member mol 0

/-- `body_type[m] = __scalar_as_int(d_postype[central_idx[m]].w)`. -/
def body_type (A : VirialArgs) (mol : Nat) : Nat :=
  (A.d_postype (A.central_idx mol)).typ

/-- `body_orientation[m] = d_orientation[central_idx[m]]`. -/
def body_orientation (A : VirialArgs) (mol : Nat) : Quat :=
  A.d_orientation (A.central_idx mol)

/-- `central_tag = d_tag[central_idx[m]]`. -/
def central_tag (A : VirialArgs) (mol : Nat) : Nat :=
  A.d_tag (A.central_idx mol)

/-- `mol_len = d_molecule_len[mol_idx[m]]`. -/
def mol_len (A : VirialArgs) (mol : Nat) : Nat := A.d_molecule_len mol

/-- `n_windows = mol_len / window_size + 1`. -/
def n_windows (A : VirialArgs) (mol : Nat) : Nat :=
  A.mol_len mol / A.window_size + 1

/-- `local_idx = tag - central_tag - 1` in unsigned 32-bit arithmetic. -/
def local_idx (A : VirialArgs) (mol k : Nat) : Nat :=
  usub32 (usub32 (A.d_tag (A.member mol k)) (A.central_tag mol)) 1

/-- `ri = rotate(quat(body_orientation[m]), particle_pos)`. -/
def rel_pos (A : VirialArgs) (mol k : Nat) : Vec3 :=
  rotate (A.body_orientation mol)
    (A.d_body_pos (A.body_indexer (A.body_type mol) (A.local_idx mol k)))

/-- Member slot `k` contributes iff `k < mol_len` and
`pidx != central_idx[m]`. -/
def contributes (A : VirialArgs) (mol k : Nat) : Prop :=
  k < A.mol_len mol ∧ A.member mol k ≠ A.central_idx mol

instance (A : VirialArgs) (mol k : Nat) : Decidable (A.contributes mol k) := by
  unfold contributes; infer_instance

/-- Virial gathered from member slot `k`: the six net-virial components read
at `j*net_virial_pitch + pidx` minus the intra-body part `fi ⊗ ri`
(`sum_virial_xx += virialxx - fi.x*ri.x`, ..., `sum_virial_zz += virialzz -
fi.z*ri.z`). -/
def virialContrib (A : VirialArgs) (st : VirialState) (mol k : Nat) : Virial6 :=
  if A.contributes mol k then
    let pidx := A.member mol k
    let f := st.d_net_force pidx
    let r := A.rel_pos mol k
    ⟨st.d_net_virial (0 * A.net_virial_pitch + pidx) - f.x * r.x,
     st.d_net_virial (1 * A.net_virial_pitch + pidx) - f.x * r.y,
     st.d_net_virial (2 * A.net_virial_pitch + pidx) - f.x * r.z,
     st.d_net_virial (3 * A.net_virial_pitch + pidx) - f.y * r.y,
     st.d_net_virial (4 * A.net_virial_pitch + pidx) - f.y * r.z,
     st.d_net_virial (5 * A.net_virial_pitch + pidx) - f.z * r.z⟩
  else 0

/-- Per-lane partial virial sum after the sliding-window gather. -/
def laneVirial (A : VirialArgs) (st : VirialState) (mol t : Nat) : Virial6 :=
  if A.central_idx mol < A.N then
    ∑ s in Finset.range (A.n_windows mol), A.virialContrib st mol (s * A.window_size + t)
  else 0

/-- Total body virial published by lane 0 after the tree reduction. -/
def bodyVirialTotal (A : VirialArgs) (st : VirialState) (mol : Nat) : Virial6 :=
  treeCombine (A.window_size / 2) (A.laneVirial st mol) 0

/-- Storage index `i` is a constituent folded by body `mol`'s gather loop. -/
def folded (A : VirialArgs) (mol i : Nat) : Prop :=
  ∃ s, s < A.n_windows mol ∧ ∃ t, t < A.window_size ∧
    A.contributes mol (s * A.window_size + t) ∧ A.member mol (s * A.window_size + t) = i

instance (A : VirialArgs) (mol i : Nat) : Decidable (A.folded mol i) := by
  unfold folded; infer_instance

/-- The flat net-virial slot `j * net_virial_pitch + i` is zeroed by body
`mol`'s gather: `i` is a folded constituent and `j < 6`. -/
def zeroedVirialSlot (A : VirialArgs) (mol l : Nat) : Prop :=
  ∃ j, j < 6 ∧ ∃ s, s < A.n_windows mol ∧ ∃ t, t < A.window_size ∧
    A.contributes mol (s * A.window_size + t) ∧
    l = j * A.net_virial_pitch + A.member mol (s * A.window_size + t)

instance (A : VirialArgs) (mol l : Nat) : Decidable (A.zeroedVirialSlot mol l) := by
  unfold zeroedVirialSlot; infer_instance

lemma zeroedVirialSlot_iff (A : VirialArgs) (mol l : Nat) :
    A.zeroedVirialSlot mol l ↔
      ∃ j, j < 6 ∧ ∃ i, A.folded mol i ∧ l = j * A.net_virial_pitch + i := by
  constructor
  · rintro ⟨j, hj, s, hs, t, ht, hc, hl⟩
    exact ⟨j, hj, A.member mol (s * A.window_size + t), ⟨s, hs, t, ht, hc, rfl⟩, hl⟩
  · rintro ⟨j, hj, i, ⟨s, hs, t, ht, hc, hi⟩, hl⟩
    exact ⟨j, hj, s, hs, t, ht, hc, by rw [hi]; exact hl⟩

end VirialArgs

/-- The action of one body's thread group in
`gpu_rigid_virial_sliding_kernel`: the gather loop (guarded by
`central_idx[m] < N`) accumulates the corrected virial and zeroes each
folded constituent's net force and six net-virial slots; the write-out
stores the six reduced components at `j*virial_pitch + central_idx[m]`
whenever `mol_idx[m] != NO_BODY`, with no range check on `central_idx[m]`. -/
def rigid_virial_body (A : VirialArgs) (st : VirialState) (mol : Nat) : VirialState :=
  if mol < A.n_mol then
    let v := A.bodyVirialTotal st mol
    { d_virial := fun l =>
        -- the six stores execute in program order, so at a colliding flat
        -- index the later component wins
        if l = 5 * A.virial_pitch + A.central_idx mol then v.zz
        else if l = 4 * A.virial_pitch + A.central_idx mol then v.yz
        else if l = 3 * A.virial_pitch + A.central_idx mol then v.yy
        else if l = 2 * A.virial_pitch + A.central_idx mol then v.xz
        else if l = 1 * A.virial_pitch + A.central_idx mol then v.xy
        else if l = 0 * A.virial_pitch + A.central_idx mol then v.xx
        else st.d_virial l
      d_net_force := fun i =>
        if A.central_idx mol < A.N ∧ A.folded mol i then 0 else st.d_net_force i
      d_net_virial := fun l =>
        if A.central_idx mol < A.N ∧ A.zeroedVirialSlot mol l then 0
        else st.d_net_virial l }
  else st

/-- The full `gpu_rigid_virial` pass: `cudaMemset` clears the
`6 * virial_pitch` flat output slots, then the sliding kernel processes
every body. -/
def gpu_rigid_virial (A : VirialArgs) (st : VirialState) : VirialState :=
  let st0 : VirialState :=
    { st with d_virial := fun l => if l < 6 * A.virial_pitch then 0 else st.d_virial l }
  (List.range A.n_mol).foldl (rigid_virial_body A) st0

/-- Read-only inputs of `gpu_update_composite_kernel`.  The periodic box is
kept abstract as its `wrap` operation
`wrap : (position, image) → (wrapped position, updated image)`, matching the
in-place `box.wrap(updated_pos, imgi)` call. -/
structure UpdateArgs where
  N : Nat
  n_ghost : Nat
  d_body : Nat → Nat
  d_rtag : Nat → Nat
  d_tag : Nat → Nat
  body_indexer : Nat → Nat → Nat
  d_body_pos : Nat → Vec3
  d_body_orientation : Nat → Quat
  wrap : Vec3 → Int3 → Vec3 × Int3
  remote : Bool

/-- Mutable particle arrays touched (read and/or written) by the update
kernel: packed position+type, orientation, and image flags. -/
structure UpdateState where
  d_postype : Nat → PosType
  d_orientation : Nat → Quat
  d_image : Nat → Int3

/-- Result of one thread of `gpu_update_composite_kernel`: an early
`return` (`skip`), a dereference of central data at a storage index outside
the valid `N + n_ghost` range (`fault`, undefined behaviour in the CUDA
source), or the pair of values stored to `d_postype[idx]` and
`d_image[idx]`. -/
inductive UpdateOutcome where
  | skip : UpdateOutcome
  | fault : UpdateOutcome
  | write : PosType → Int3 → UpdateOutcome
  deriving DecidableEq, Repr

/-- One thread of `gpu_update_composite_kernel`, following the guard order of
the source: thread-range check, `NO_BODY` check, the local-only check
`!remote && central_idx >= N`, the ghost check
`central_idx == NOT_LOCAL && idx >= N`, and the central self-check
`idx == central_idx`.  Past the guards the thread reads the central's
postype/orientation/image, rotates the template offset by the central's
current orientation, adds it to the central position, wraps, and stores the
new position (preserving particle `idx`'s own type) and image.  The updated
orientation `orientation * local_orientation` is computed but never stored
back (`d_orientation[idx]` is not written by the source kernel). -/
def update_outcome (A : UpdateArgs) (st : UpdateState) (idx : Nat) : UpdateOutcome :=
  if A.N + A.n_ghost ≤ idx then .skip
  else
    let central_tag := A.d_body idx
    if central_tag = NO_BODY then .skip
    else
      let central_idx := A.d_rtag central_tag
      if A.remote = false ∧ A.N ≤ central_idx then .skip
      else if central_idx = NOT_LOCAL ∧ A.N ≤ idx then .skip
      else if idx = central_idx then .skip
      else if A.N + A.n_ghost ≤ central_idx then .fault
      else
        let postype := st.d_postype central_idx
        let pos := postype.pos
        let orientation := st.d_orientation central_idx
        let body_type := postype.typ
        let img := st.d_image central_idx
        let tag := A.d_tag idx
        let lidx := usub32 (usub32 tag central_tag) 1
        let local_pos := A.d_body_pos (A.body_indexer body_type lidx)
        let dr_space := rotate orientation local_pos
        let updated_pos := pos + dr_space
        let wrapped := A.wrap updated_pos img
        let typ := (st.d_postype idx).typ
        .write ⟨wrapped.1, typ⟩ wrapped.2

/-- The full `gpu_update_composite` pass.  Each thread writes only its own
`d_postype[idx]` and `d_image[idx]` slots and reads central slots that are
never written (the kernel skips `idx == central_idx`), so the parallel
kernel is the pointwise application of `update_outcome` computed from the
pre-pass state.  No thread stores to `d_orientation`. -/
def gpu_update_composite (A : UpdateArgs) (st : UpdateState) : UpdateState :=
  { d_postype := fun i =>
      match update_outcome A st i with
      | .write pt _ => pt
      | _ => st.d_postype i
    d_image := fun i =>
      match update_outcome A st i with
      | .write _ img => img
      | _ => st.d_image i
    d_orientation := st.d_orientation }

section WindowCover

variable {M : Type*} [AddCommMonoid M]

/-- Reindexing the window/lane double sum as a single member-slot sum. -/
lemma sum_windows_full (g : Nat → M) (ws nw : Nat) :
    (∑ s in Finset.range nw, ∑ t in Finset.range ws, g (s * ws + t)) =
      ∑ k in Finset.range (nw * ws), g k := by
  induction nw with
  | zero => simp
  | succ n ih =>
    rw [Finset.sum_range_succ, ih, Nat.succ_mul, sum_range_add]

/-- The sliding-window gather covers exactly the member slots `k < L` when
the per-slot contribution vanishes for `k ≥ L` and the window count reaches
`L` (`n_windows * window_size ≥ L`). -/
lemma sum_windows (g : Nat → M) (ws nw L : Nat) (hL : L ≤ nw * ws)
    (hz : ∀ k, L ≤ k → g k = 0) :
    (∑ t in Finset.range ws, ∑ s in Finset.range nw, g (s * ws + t)) =
      ∑ k in Finset.range L, g k := by
  rw [Finset.sum_comm, sum_windows_full]
  symm
  refine Finset.sum_subset ?_ ?_
  · exact Finset.range_subset.mpr hL
  · intro k _ hk
    exact hz k (by simpa using hk)

end WindowCover

namespace ForceArgs

lemma mol_len_le_windows (A : ForceArgs) (mol : Nat) (hws : 0 < A.window_size) :
    A.mol_len mol ≤ A.n_windows mol * A.window_size := by
  unfold n_windows
  have h1 := Nat.div_add_mod' (A.mol_len mol) A.window_size
  have h2 := Nat.mod_lt (A.mol_len mol) hws
  have h3 : (A.mol_len mol / A.window_size + 1) * A.window_size =
      A.mol_len mol / A.window_size * A.window_size + A.window_size := by
    rw [Nat.succ_mul]
  omega

lemma forceContrib_zero (A : ForceArgs) (st : ForceState) (mol k : Nat)
    (h : A.mol_len mol ≤ k) : A.forceContrib st mol k = 0 := by
  unfold forceContrib contributes
  rw [if_neg]
  omega

lemma torqueContrib_zero (A : ForceArgs) (st : ForceState) (mol k : Nat)
    (h : A.mol_len mol ≤ k) : A.torqueContrib st mol k = 0 := by
  unfold torqueContrib contributes
  rw [if_neg]
  omega

/-- With a power-of-two window, the reduced body force is the exact sum of
the per-slot contributions (gather active: central in local range). -/
lemma bodyForceTotal_eq (A : ForceArgs) (st : ForceState) (mol e : Nat)
    (he : A.window_size = 2 ^ e) (hc : A.central_idx mol < A.N) :
    A.bodyForceTotal st mol =
      ∑ k in Finset.range (A.mol_len mol), A.forceContrib st mol k := by
  unfold bodyForceTotal
  rw [show A.window_size / 2 = 2 ^ e / 2 from by rw [he], treeCombine_pow_sum]
  have hlane : ∀ t, A.laneForce st mol t =
      ∑ s in Finset.range (A.n_windows mol),
        A.forceContrib st mol (s * A.window_size + t) := by
    intro t; unfold laneForce; rw [if_pos hc]
  calc (∑ t in Finset.range (2 ^ e), A.laneForce st mol t)
      = ∑ t in Finset.range A.window_size, ∑ s in Finset.range (A.n_windows mol),
          A.forceContrib st mol (s * A.window_size + t) := by
        rw [← he]; exact Finset.sum_congr rfl fun t _ => hlane t
    _ = ∑ k in Finset.range (A.mol_len mol), A.forceContrib st mol k :=
        sum_windows _ _ _ _
          (A.mol_len_le_windows mol (by rw [he]; positivity))
          (A.forceContrib_zero st mol)

/-- With a power-of-two window, the reduced body torque is the exact sum of
the per-slot contributions (gather active). -/
lemma bodyTorqueTotal_eq (A : ForceArgs) (st : ForceState) (mol e : Nat)
    (he : A.window_size = 2 ^ e) (hc : A.central_idx mol < A.N) :
    A.bodyTorqueTotal st mol =
      ∑ k in Finset.range (A.mol_len mol), A.torqueContrib st mol k := by
  unfold bodyTorqueTotal
  rw [show A.window_size / 2 = 2 ^ e / 2 from by rw [he], treeCombine_pow_sum]
  have hlane : ∀ t, A.laneTorque st mol t =
      ∑ s in Finset.range (A.n_windows mol),
        A.torqueContrib st mol (s * A.window_size + t) := by
    intro t; unfold laneTorque; rw [if_pos hc]
  calc (∑ t in Finset.range (2 ^ e), A.laneTorque st mol t)
      = ∑ t in Finset.range A.window_size, ∑ s in Finset.range (A.n_windows mol),
          A.torqueContrib st mol (s * A.window_size + t) := by
        rw [← he]; exact Finset.sum_congr rfl fun t _ => hlane t
    _ = ∑ k in Finset.range (A.mol_len mol), A.torqueContrib st mol k :=
        sum_windows _ _ _ _
          (A.mol_len_le_windows mol (by rw [he]; positivity))
          (A.torqueContrib_zero st mol)

/-- A skipped body (central outside the local range) reduces to zero force:
every lane keeps its zero initializer. -/
lemma bodyForceTotal_skip (A : ForceArgs) (st : ForceState) (mol : Nat)
    (hc : ¬ A.central_idx mol < A.N) : A.bodyForceTotal st mol = 0 := by
  unfold bodyForceTotal
  have hlane : A.laneForce st mol = fun _ => (0 : Vec4) := by
    funext t; unfold laneForce; rw [if_neg hc]
  rw [hlane, treeCombine_zero_fun (0 : Vec4) (add_zero 0)]

/-- A skipped body reduces to zero torque. -/
lemma bodyTorqueTotal_skip (A : ForceArgs) (st : ForceState) (mol : Nat)
    (hc : ¬ A.central_idx mol < A.N) : A.bodyTorqueTotal st mol = 0 := by
  unfold bodyTorqueTotal
  have hlane : A.laneTorque st mol = fun _ => (0 : Vec3) := by
    funext t; unfold laneTorque; rw [if_neg hc]
  rw [hlane, treeCombine_zero_fun (0 : Vec3) (add_zero 0)]

/-- The reduced body force reads only the net forces of the body's own
contributing member slots. -/
lemma bodyForceTotal_congr (A : ForceArgs) (st1 st2 : ForceState) (mol : Nat)
    (h : ∀ k, A.contributes mol k →
      st1.d_net_force (A.member mol k) = st2.d_net_force (A.member mol k)) :
    A.bodyForceTotal st1 mol = A.bodyForceTotal st2 mol := by
  unfold bodyForceTotal
  have hlane : A.laneForce st1 mol = A.laneForce st2 mol := by
    funext t
    unfold laneForce
    by_cases hc : A.central_idx mol < A.N
    · rw [if_pos hc, if_pos hc]
      refine Finset.sum_congr rfl fun s _ => ?_
      unfold forceContrib
      by_cases hk : A.contributes mol (s * A.window_size + t)
      · rw [if_pos hk, if_pos hk, h _ hk]
      · rw [if_neg hk, if_neg hk]
    · rw [if_neg hc, if_neg hc]
  rw [hlane]

/-- The reduced body torque reads only the net forces and net torques of the
body's own contributing member slots. -/
lemma bodyTorqueTotal_congr (A : ForceArgs) (st1 st2 : ForceState) (mol : Nat)
    (hf : ∀ k, A.contributes mol k →
      st1.d_net_force (A.member mol k) = st2.d_net_force (A.member mol k))
    (ht : ∀ k, A.contributes mol k →
      st1.d_net_torque (A.member mol k) = st2.d_net_torque (A.member mol k)) :
    A.bodyTorqueTotal st1 mol = A.bodyTorqueTotal st2 mol := by
  unfold bodyTorqueTotal
  have hlane : A.laneTorque st1 mol = A.laneTorque st2 mol := by
    funext t
    unfold laneTorque
    by_cases hc : A.central_idx mol < A.N
    · rw [if_pos hc, if_pos hc]
      refine Finset.sum_congr rfl fun s _ => ?_
      unfold torqueContrib
      by_cases hk : A.contributes mol (s * A.window_size + t)
      · rw [if_pos hk, if_pos hk, hf _ hk, ht _ hk]
      · rw [if_neg hk, if_neg hk]
    · rw [if_neg hc, if_neg hc]
  rw [hlane]

/-- A folded constituent occupies a member slot `k < mol_len` distinct from
the central index. -/
lemma folded_elim (A : ForceArgs) (mol i : Nat) (h : A.folded mol i) :
    ∃ k, k < A.mol_len mol ∧ A.member mol k = i ∧ A.member mol k ≠ A.central_idx mol := by
  obtain ⟨s, _, t, _, ⟨hk, hne⟩, hi⟩ := h
  exact ⟨s * A.window_size + t, hk, hi, hne⟩

/-- Conversely, every contributing member slot is folded when the window
size is positive. -/
lemma folded_intro (A : ForceArgs) (mol k : Nat) (hws : 0 < A.window_size)
    (hc : A.contributes mol k) : A.folded mol (A.member mol k) := by
  refine ⟨k / A.window_size, ?_, k % A.window_size, Nat.mod_lt k hws, ?_, ?_⟩
  · unfold n_windows
    have : k / A.window_size ≤ A.mol_len mol / A.window_size :=
      Nat.div_le_div_right (le_of_lt hc.1)
    omega
  · rw [Nat.div_add_mod']; exact hc
  · rw [Nat.div_add_mod']

/-- The bodies of distinct molecule indices touch disjoint particle storage:
distinct central slots, no member of one body is the central of another, and
no member slot collides across bodies.  This is the molecule-table
well-formedness the engine guarantees (each particle belongs to one body). -/
def BodiesDisjoint (A : ForceArgs) : Prop :=
  ∀ m1, m1 < A.n_mol → ∀ m2, m2 < A.n_mol → m1 ≠ m2 →
    A.central_idx m1 ≠ A.central_idx m2 ∧
    (∀ k, k < A.mol_len m2 → A.member m2 k ≠ A.central_idx m1) ∧
    (∀ k, k < A.mol_len m1 → A.member m1 k ≠ A.central_idx m2) ∧
    (∀ k1, k1 < A.mol_len m1 → ∀ k2, k2 < A.mol_len m2 →
      A.member m1 k1 ≠ A.member m2 k2)

instance (A : ForceArgs) : Decidable (A.BodiesDisjoint) := by
  unfold BodiesDisjoint; infer_instance

end ForceArgs

section ForceStepLemmas

open ForceArgs

variable (A : ForceArgs) (st : ForceState) (mol i : Nat)

lemma force_body_d_force_central (hm : mol < A.n_mol) :
    (rigid_force_body A st mol).d_force (A.central_idx mol) = A.bodyForceTotal st mol := by
  unfold rigid_force_body
  rw [if_pos hm]
  simp

lemma force_body_d_torque_central (hm : mol < A.n_mol) :
    (rigid_force_body A st mol).d_torque (A.central_idx mol) =
      ⟨(A.bodyTorqueTotal st mol).x, (A.bodyTorqueTotal st mol).y,
       (A.bodyTorqueTotal st mol).z, 0⟩ := by
  unfold rigid_force_body
  rw [if_pos hm]
  simp

lemma force_body_d_force_other (h : i ≠ A.central_idx mol) :
    (rigid_force_body A st mol).d_force i = st.d_force i := by
  unfold rigid_force_body
  by_cases hm : mol < A.n_mol
  · rw [if_pos hm]; simp [h]
  · rw [if_neg hm]

lemma force_body_d_torque_other (h : i ≠ A.central_idx mol) :
    (rigid_force_body A st mol).d_torque i = st.d_torque i := by
  unfold rigid_force_body
  by_cases hm : mol < A.n_mol
  · rw [if_pos hm]; simp [h]
  · rw [if_neg hm]

lemma force_body_net_force_preserve
    (h : ¬ (A.central_idx mol < A.N ∧ A.zero_force = true ∧ A.folded mol i)) :
    (rigid_force_body A st mol).d_net_force i = st.d_net_force i := by
  unfold rigid_force_body
  by_cases hm : mol < A.n_mol
  · rw [if_pos hm]; simp only []; rw [if_neg h]
  · rw [if_neg hm]

lemma force_body_net_torque_preserve
    (h : ¬ (A.central_idx mol < A.N ∧ A.folded mol i)) :
    (rigid_force_body A st mol).d_net_torque i = st.d_net_torque i := by
  unfold rigid_force_body
  by_cases hm : mol < A.n_mol
  · rw [if_pos hm]; simp only []; rw [if_neg h]
  · rw [if_neg hm]

lemma force_body_net_force_cases :
    (rigid_force_body A st mol).d_net_force i = st.d_net_force i ∨
      (rigid_force_body A st mol).d_net_force i = 0 := by
  unfold rigid_force_body
  by_cases hm : mol < A.n_mol
  · rw [if_pos hm]
    by_cases h : A.central_idx mol < A.N ∧ A.zero_force = true ∧ A.folded mol i
    · right; simp only []; rw [if_pos h]
    · left; simp only []; rw [if_neg h]
  · left; rw [if_neg hm]

lemma force_body_net_torque_cases :
    (rigid_force_body A st mol).d_net_torque i = st.d_net_torque i ∨
      (rigid_force_body A st mol).d_net_torque i = 0 := by
  unfold rigid_force_body
  by_cases hm : mol < A.n_mol
  · rw [if_pos hm]
    by_cases h : A.central_idx mol < A.N ∧ A.folded mol i
    · right; simp only []; rw [if_pos h]
    · left; simp only []; rw [if_neg h]
  · left; rw [if_neg hm]

lemma force_body_net_force_zero (hm : mol < A.n_mol)
    (h : A.central_idx mol < A.N ∧ A.zero_force = true ∧ A.folded mol i) :
    (rigid_force_body A st mol).d_net_force i = 0 := by
  unfold rigid_force_body
  rw [if_pos hm]
  simp only []
  rw [if_pos h]

lemma force_body_net_torque_zero (hm : mol < A.n_mol)
    (h : A.central_idx mol < A.N ∧ A.folded mol i) :
    (rigid_force_body A st mol).d_net_torque i = 0 := by
  unfold rigid_force_body
  rw [if_pos hm]
  simp only []
  rw [if_pos h]

end ForceStepLemmas

section ForceFoldLemmas

open ForceArgs

/-- A body `m` distinct from `mol` never folds any member slot of `mol`
(member or central), when the bodies are disjoint. -/
lemma not_folded_of_other (A : ForceArgs) (m mol k : Nat)
    (hdisj : A.BodiesDisjoint) (hm : m < A.n_mol) (hmol : mol < A.n_mol)
    (hne : m ≠ mol) (hk : k ≤ A.mol_len mol)
    (hkm : k < A.mol_len mol ∨ k = 0) :
    ¬ A.folded m (A.member mol k) := by
  intro hf
  obtain ⟨k', hk', hmem, hnc⟩ := A.folded_elim m _ hf
  obtain ⟨hc, h1, h2, h3⟩ := hdisj m hm mol hmol hne
  rcases hkm with hlt | h0
  · exact h3 k' hk' k hlt hmem
  · subst h0
    exact h2 k' hk' hmem

/-- Folding a list of other bodies preserves the net force and net torque at
every member slot (and the central slot) of body `mol`. -/
lemma fold_net_preserve (A : ForceArgs) (mol : Nat) (hmol : mol < A.n_mol)
    (hdisj : A.BodiesDisjoint) :
    ∀ (l : List Nat) (st : ForceState), (∀ m ∈ l, m < A.n_mol ∧ m ≠ mol) →
      ∀ k, (k < A.mol_len mol ∨ k = 0) →
        (l.foldl (rigid_force_body A) st).d_net_force (A.member mol k) =
            st.d_net_force (A.member mol k) ∧
        (l.foldl (rigid_force_body A) st).d_net_torque (A.member mol k) =
            st.d_net_torque (A.member mol k) := by
  intro l
  induction l with
  | nil => intro st _ k _; exact ⟨rfl, rfl⟩
  | cons m tl ih =>
    intro st hl k hk
    obtain ⟨hmN, hmne⟩ := hl m (List.mem_cons_self m tl)
    have htl : ∀ m' ∈ tl, m' < A.n_mol ∧ m' ≠ mol := fun m' hm' =>
      hl m' (List.mem_cons_of_mem m hm')
    have hnf : ¬ A.folded m (A.member mol k) :=
      not_folded_of_other A m mol k hdisj hmN hmol hmne
        (by rcases hk with h | h <;> omega) hk
    have h1 : (rigid_force_body A st m).d_net_force (A.member mol k) =
        st.d_net_force (A.member mol k) :=
      force_body_net_force_preserve A st m _ (by tauto)
    have h2 : (rigid_force_body A st m).d_net_torque (A.member mol k) =
        st.d_net_torque (A.member mol k) :=
      force_body_net_torque_preserve A st m _ (by tauto)
    rw [List.foldl_cons]
    rcases ih (rigid_force_body A st m) htl k hk with ⟨ihf, iht⟩
    exact ⟨ihf.trans h1, iht.trans h2⟩

/-- Folding a list of other bodies preserves the central output slot of body
`mol`. -/
lemma fold_out_preserve (A : ForceArgs) (mol : Nat) (hmol : mol < A.n_mol)
    (hdisj : A.BodiesDisjoint) :
    ∀ (l : List Nat) (st : ForceState), (∀ m ∈ l, m < A.n_mol ∧ m ≠ mol) →
      (l.foldl (rigid_force_body A) st).d_force (A.central_idx mol) =
          st.d_force (A.central_idx mol) ∧
      (l.foldl (rigid_force_body A) st).d_torque (A.central_idx mol) =
          st.d_torque (A.central_idx mol) := by
  intro l
  induction l with
  | nil => intro st _; exact ⟨rfl, rfl⟩
  | cons m tl ih =>
    intro st hl
    obtain ⟨hmN, hmne⟩ := hl m (List.mem_cons_self m tl)
    have htl : ∀ m' ∈ tl, m' < A.n_mol ∧ m' ≠ mol := fun m' hm' =>
      hl m' (List.mem_cons_of_mem m hm')
    have hcc : A.central_idx mol ≠ A.central_idx m :=
      (hdisj mol hmol m hmN (Ne.symm hmne)).1
    have h1 : (rigid_force_body A st m).d_force (A.central_idx mol) =
        st.d_force (A.central_idx mol) :=
      force_body_d_force_other A st m _ hcc
    have h2 : (rigid_force_body A st m).d_torque (A.central_idx mol) =
        st.d_torque (A.central_idx mol) :=
      force_body_d_torque_other A st m _ hcc
    rw [List.foldl_cons]
    rcases ih (rigid_force_body A st m) htl with ⟨ihf, iht⟩
    exact ⟨ihf.trans h1, iht.trans h2⟩

/-- Decomposing `List.range n` around an element `mol < n`. -/
lemma range_split (n mol : Nat) (h : mol < n) :
    List.range n = List.range mol ++ mol ::
      (List.range (n - (mol + 1))).map (fun j => (mol + 1) + j) := by
  have hn : n = (mol + 1) + (n - (mol + 1)) := by omega
  calc List.range n = List.range ((mol + 1) + (n - (mol + 1))) := by rw [← hn]
    _ = List.range (mol + 1) ++ (List.range (n - (mol + 1))).map ((mol + 1) + ·) :=
        List.range_add _ _
    _ = List.range mol ++ mol ::
          (List.range (n - (mol + 1))).map (fun j => (mol + 1) + j) := by
        rw [List.range_succ]
        simp

/-- Master lemma for the force pass: for any body `mol`, the pass writes the
tree-reduced totals of `mol` — computed from the pre-pass net arrays — to
the central particle's force and torque slots. -/
lemma gpu_rigid_force_central (A : ForceArgs) (st : ForceState) (mol : Nat)
    (hmol : mol < A.n_mol) (hdisj : A.BodiesDisjoint) :
    (gpu_rigid_force A st).d_force (A.central_idx mol) = A.bodyForceTotal st mol ∧
    (gpu_rigid_force A st).d_torque (A.central_idx mol) =
      ⟨(A.bodyTorqueTotal st mol).x, (A.bodyTorqueTotal st mol).y,
       (A.bodyTorqueTotal st mol).z, 0⟩ := by
  unfold gpu_rigid_force
  set st0 : ForceState :=
    { st with
      d_force := fun i => if i < A.N then 0 else st.d_force i
      d_torque := fun i => if i < A.N then 0 else st.d_torque i } with hst0
  rw [range_split A.n_mol mol hmol, List.foldl_append, List.foldl_cons]
  set stPre := (List.range mol).foldl (rigid_force_body A) st0 with hstPre
  have hpre : ∀ m ∈ List.range mol, m < A.n_mol ∧ m ≠ mol := by
    intro m hm
    have := List.mem_range.mp hm
    omega
  have htail : ∀ m ∈ (List.range (A.n_mol - (mol + 1))).map (fun j => (mol + 1) + j),
      m < A.n_mol ∧ m ≠ mol := by
    intro m hm
    obtain ⟨j, hj, rfl⟩ := List.mem_map.mp hm
    have := List.mem_range.mp hj
    omega
  have hnets : ∀ k, A.contributes mol k →
      stPre.d_net_force (A.member mol k) = st.d_net_force (A.member mol k) ∧
      stPre.d_net_torque (A.member mol k) = st.d_net_torque (A.member mol k) := by
    intro k hk
    have := fold_net_preserve A mol hmol hdisj (List.range mol) st0 hpre k (Or.inl hk.1)
    rw [hstPre]
    exact this
  have hforce : A.bodyForceTotal stPre mol = A.bodyForceTotal st mol :=
    A.bodyForceTotal_congr stPre st mol fun k hk => (hnets k hk).1
  have htorque : A.bodyTorqueTotal stPre mol = A.bodyTorqueTotal st mol :=
    A.bodyTorqueTotal_congr stPre st mol (fun k hk => (hnets k hk).1)
      (fun k hk => (hnets k hk).2)
  have hstep_f := force_body_d_force_central A stPre mol hmol
  have hstep_t := force_body_d_torque_central A stPre mol hmol
  rcases fold_out_preserve A mol hmol hdisj
      ((List.range (A.n_mol - (mol + 1))).map (fun j => (mol + 1) + j))
      (rigid_force_body A stPre mol) htail with ⟨hf, ht⟩
  constructor
  · rw [hf, hstep_f, hforce]
  · rw [ht, hstep_t, htorque]

end ForceFoldLemmas

/-- The xyz part of a `Scalar4`. -/
def vec3of (v : Vec4) : Vec3 := ⟨v.x, v.y, v.z⟩

section ForceClaims

open ForceArgs

/-- The net-force/net-torque arrays are only ever overwritten with zero by
the force pass, so a zero slot stays zero across the remaining bodies. -/
lemma fold_net_zero_stays (A : ForceArgs) :
    ∀ (l : List Nat) (st : ForceState) (i : Nat),
      (st.d_net_force i = 0 → (l.foldl (rigid_force_body A) st).d_net_force i = 0) ∧
      (st.d_net_torque i = 0 → (l.foldl (rigid_force_body A) st).d_net_torque i = 0) := by
  intro l
  induction l with
  | nil => intro st i; exact ⟨id, id⟩
  | cons m tl ih =>
    intro st i
    rw [List.foldl_cons]
    constructor
    · intro h0
      refine (ih _ i).1 ?_
      rcases force_body_net_force_cases A st m i with h | h <;> rw [h]
      exact h0
    · intro h0
      refine (ih _ i).2 ?_
      rcases force_body_net_torque_cases A st m i with h | h <;> rw [h]
      exact h0

/-- After the pass, each folded constituent of a gathered body reads zero
net force (when `zero_force`) and zero net torque (always). -/
lemma gpu_rigid_force_zeroes (A : ForceArgs) (st : ForceState) (mol i : Nat)
    (hmol : mol < A.n_mol) (hcN : A.central_idx mol < A.N) (hf : A.folded mol i) :
    (A.zero_force = true → (gpu_rigid_force A st).d_net_force i = 0) ∧
    (gpu_rigid_force A st).d_net_torque i = 0 := by
  unfold gpu_rigid_force
  rw [range_split A.n_mol mol hmol, List.foldl_append, List.foldl_cons]
  set stPre := (List.range mol).foldl (rigid_force_body A) _ with hstPre
  constructor
  · intro hz
    refine (fold_net_zero_stays A _ _ i).1 ?_
    exact force_body_net_force_zero A stPre mol i hmol ⟨hcN, hz, hf⟩
  · refine (fold_net_zero_stays A _ _ i).2 ?_
    exact force_body_net_torque_zero A stPre mol i hmol ⟨hcN, hf⟩

/-- All net slots feeding any gathered body vanish. -/
def NetsCleared (A : ForceArgs) (st : ForceState) : Prop :=
  ∀ m, m < A.n_mol → A.central_idx m < A.N →
    ∀ i, A.folded m i → st.d_net_force i = 0 ∧ st.d_net_torque i = 0

lemma netsCleared_step (A : ForceArgs) (st : ForceState) (m : Nat)
    (h : NetsCleared A st) : NetsCleared A (rigid_force_body A st m) := by
  intro m' hm' hc' i hi
  obtain ⟨h1, h2⟩ := h m' hm' hc' i hi
  constructor
  · rcases force_body_net_force_cases A st m i with hcase | hcase <;> rw [hcase]
    exact h1
  · rcases force_body_net_torque_cases A st m i with hcase | hcase <;> rw [hcase]
    exact h2

/-- With all feeding net slots zero, every body reduces to zero totals. -/
lemma bodyTotals_zero_of_cleared (A : ForceArgs) (st : ForceState) (mol : Nat)
    (hws : 0 < A.window_size) (hmol : mol < A.n_mol) (h : NetsCleared A st) :
    A.bodyForceTotal st mol = 0 ∧ A.bodyTorqueTotal st mol = 0 := by
  by_cases hc : A.central_idx mol < A.N
  · have hcontrib : ∀ k, A.forceContrib st mol k = 0 ∧ A.torqueContrib st mol k = 0 := by
      intro k
      by_cases hk : A.contributes mol k
      · have hfold := A.folded_intro mol k hws hk
        obtain ⟨h1, h2⟩ := h mol hmol hc _ hfold
        constructor
        · unfold forceContrib; rw [if_pos hk, h1]
        · unfold torqueContrib
          rw [if_pos hk]
          simp only [h1, h2]
          ext <;> simp [cross]
      · exact ⟨by unfold forceContrib; rw [if_neg hk],
               by unfold torqueContrib; rw [if_neg hk]⟩
    constructor
    · unfold bodyForceTotal
      have hlane : A.laneForce st mol = fun _ => (0 : Vec4) := by
        funext t
        unfold laneForce
        rw [if_pos hc]
        exact Finset.sum_eq_zero fun s _ => (hcontrib _).1
      rw [hlane, treeCombine_zero_fun (0 : Vec4) (add_zero 0)]
    · unfold bodyTorqueTotal
      have hlane : A.laneTorque st mol = fun _ => (0 : Vec3) := by
        funext t
        unfold laneTorque
        rw [if_pos hc]
        exact Finset.sum_eq_zero fun s _ => (hcontrib _).2
      rw [hlane, treeCombine_zero_fun (0 : Vec3) (add_zero 0)]
  · exact ⟨A.bodyForceTotal_skip st mol hc, A.bodyTorqueTotal_skip st mol hc⟩

/-- With all feeding net slots zero, folding any list of bodies writes only
zero outputs: a zero output slot stays zero. -/
lemma fold_out_zero_stays (A : ForceArgs) (hws : 0 < A.window_size) :
    ∀ (l : List Nat) (st : ForceState), NetsCleared A st →
      ∀ i, st.d_force i = 0 → st.d_torque i = 0 →
        (l.foldl (rigid_force_body A) st).d_force i = 0 ∧
        (l.foldl (rigid_force_body A) st).d_torque i = 0 := by
  intro l
  induction l with
  | nil => intro st _ i h1 h2; exact ⟨h1, h2⟩
  | cons m tl ih =>
    intro st hcl i h1 h2
    rw [List.foldl_cons]
    refine ih _ (netsCleared_step A st m hcl) i ?_ ?_
    · by_cases hm : m < A.n_mol
      · by_cases hi : i = A.central_idx m
        · subst hi
          rw [force_body_d_force_central A st m hm]
          exact (bodyTotals_zero_of_cleared A st m hws hm hcl).1
        · rw [force_body_d_force_other A st m i hi]; exact h1
      · unfold rigid_force_body; rw [if_neg hm]; exact h1
    · by_cases hm : m < A.n_mol
      · by_cases hi : i = A.central_idx m
        · subst hi
          rw [force_body_d_torque_central A st m hm,
              (bodyTotals_zero_of_cleared A st m hws hm hcl).2]
          rfl
        · rw [force_body_d_torque_other A st m i hi]; exact h2
      · unfold rigid_force_body; rw [if_neg hm]; exact h2

/-- With all feeding net slots zero, any fold containing `mol` leaves zero
in `mol`'s central output slots. -/
lemma fold_out_zero_central (A : ForceArgs) (hws : 0 < A.window_size) (mol : Nat)
    (hmol : mol < A.n_mol) :
    ∀ (l : List Nat) (st : ForceState), NetsCleared A st → mol ∈ l →
      (l.foldl (rigid_force_body A) st).d_force (A.central_idx mol) = 0 ∧
      (l.foldl (rigid_force_body A) st).d_torque (A.central_idx mol) = 0 := by
  intro l
  induction l with
  | nil => intro st _ h; exact absurd h (List.not_mem_nil mol)
  | cons m tl ih =>
    intro st hcl hmem
    rw [List.foldl_cons]
    by_cases hm : m = mol
    · subst hm
      refine fold_out_zero_stays A hws tl _ (netsCleared_step A st m hcl) _ ?_ ?_
      · rw [force_body_d_force_central A st m hmol]
        exact (bodyTotals_zero_of_cleared A st m hws hmol hcl).1
      · rw [force_body_d_torque_central A st m hmol,
            (bodyTotals_zero_of_cleared A st m hws hmol hcl).2]
        rfl
    · have : mol ∈ tl := by
        rcases List.mem_cons.mp hmem with h | h
        · exact absurd h.symm hm
        · exact h
      exact ih _ (netsCleared_step A st m hcl) this

end ForceClaims

section ForceFixtures

/-- Concrete two-particle body (central at index 0, one constituent at
index 1) used to witness the force-pass claims. -/
def testForceArgs : ForceArgs where
  d_molecule_len := fun _ => 2
  d_molecule_list := fun n => if n = 0 then 0 else 1
  d_tag := fun i => i
  d_rtag := fun i => i
  molecule_indexer := fun mol k => 2 * mol + k
  d_postype := fun _ => ⟨⟨0, 0, 0⟩, 0⟩
  d_orientation := fun _ => quatOne
  body_indexer := fun _ l => l
  d_body_pos := fun _ => ⟨1, 0, 0⟩
  d_body_orientation := fun _ => quatOne
  n_mol := 1
  N := 2
  window_size := 1
  zero_force := true

/-- Net force `(2,3,4)` with energy `5` and zero net torque on the
constituent; sentinel values in the output slots. -/
def testForceState : ForceState where
  d_force := fun _ => ⟨9, 9, 9, 9⟩
  d_torque := fun _ => ⟨9, 9, 9, 9⟩
  d_net_force := fun i => if i = 1 then ⟨2, 3, 4, 5⟩ else 0
  d_net_torque := fun _ => 0

/-- Concrete one-body configuration whose central resolves outside the
local range (`central_idx = 1 ≥ N = 1`), for the skipped-body claims. -/
def skipForceArgs : ForceArgs where
  d_molecule_len := fun _ => 2
  d_molecule_list := fun n => if n = 0 then 1 else 0
  d_tag := fun i => i + 1
  d_rtag := fun i => i
  molecule_indexer := fun mol k => 2 * mol + k
  d_postype := fun _ => ⟨⟨0, 0, 0⟩, 0⟩
  d_orientation := fun _ => quatOne
  body_indexer := fun _ l => l
  d_body_pos := fun _ => ⟨1, 0, 0⟩
  d_body_orientation := fun _ => quatOne
  n_mol := 1
  N := 1
  window_size := 1
  zero_force := true

/-- Nonzero sentinel values everywhere, to detect any write. -/
def skipForceState : ForceState where
  d_force := fun _ => ⟨1, 1, 1, 1⟩
  d_torque := fun _ => ⟨1, 1, 1, 1⟩
  d_net_force := fun _ => ⟨2, 2, 2, 2⟩
  d_net_torque := fun _ => ⟨3, 3, 3, 3⟩

end ForceFixtures

open ForceArgs in
/-- C1: for every body whose central particle resolves inside the valid
local range, after a force-reduction pass the central particle's force
output slot holds exactly the sum of the net forces (and, in the energy
component `w`, the net energies) of the body's non-central constituents —
the central's own net force excluded — and if every constituent's net force
is zero the central's output force is exactly zero. -/
theorem claim_C1 (A : ForceArgs) (st : ForceState) (mol e : Nat)
    (he : A.window_size = 2 ^ e) (hmol : mol < A.n_mol)
    (hcN : A.central_idx mol < A.N) (hdisj : A.BodiesDisjoint) :
    (gpu_rigid_force A st).d_force (A.central_idx mol) =
      (∑ k in (Finset.range (A.mol_len mol)).filter
          (fun k => A.member mol k ≠ A.central_idx mol),
        st.d_net_force (A.member mol k)) ∧
    ((∀ k, k < A.mol_len mol → A.member mol k ≠ A.central_idx mol →
        st.d_net_force (A.member mol k) = 0) →
      (gpu_rigid_force A st).d_force (A.central_idx mol) = 0) := by
  have hmain : (gpu_rigid_force A st).d_force (A.central_idx mol) =
      ∑ k in (Finset.range (A.mol_len mol)).filter
          (fun k => A.member mol k ≠ A.central_idx mol),
        st.d_net_force (A.member mol k) := by
    rw [(gpu_rigid_force_central A st mol hmol hdisj).1,
        A.bodyForceTotal_eq st mol e he hcN, Finset.sum_filter]
    refine Finset.sum_congr rfl fun k hk => ?_
    have hklt : k < A.mol_len mol := Finset.mem_range.mp hk
    unfold ForceArgs.forceContrib ForceArgs.contributes
    by_cases hne : A.member mol k ≠ A.central_idx mol
    · rw [if_pos hne, if_pos ⟨hklt, hne⟩]
    · rw [if_neg hne, if_neg (by tauto)]
  refine ⟨hmain, fun hz => ?_⟩
  rw [hmain]
  refine Finset.sum_eq_zero fun k hk => ?_
  have h1 := Finset.mem_range.mp (Finset.mem_filter.mp hk).1
  have h2 := (Finset.mem_filter.mp hk).2
  exact hz k h1 h2

/-- Witness for C1 on the concrete two-particle body: the hypotheses hold
and the central's output force is the constituent's net force `(2,3,4,5)`. -/
theorem claim_C1_witness :
    (testForceArgs.window_size = 2 ^ 0 ∧ 0 < testForceArgs.n_mol ∧
      testForceArgs.central_idx 0 < testForceArgs.N ∧ testForceArgs.BodiesDisjoint) ∧
    (gpu_rigid_force testForceArgs testForceState).d_force (testForceArgs.central_idx 0) =
      (∑ k in (Finset.range (testForceArgs.mol_len 0)).filter
          (fun k => testForceArgs.member 0 k ≠ testForceArgs.central_idx 0),
        testForceState.d_net_force (testForceArgs.member 0 k)) :=
  ⟨⟨by decide, by decide, by decide, by decide⟩,
   (claim_C1 testForceArgs testForceState 0 0 (by decide) (by decide) (by decide)
     (by decide)).1⟩

open ForceArgs in
/-- C2: after a force-reduction pass the central's torque output equals the
sum over non-central constituents of (net torque + rel_pos × net force),
where `rel_pos` is the template offset rotated by the central particle's
current orientation; for a two-particle body with zero constituent torque,
the central torque is `rel_pos × force` (with zero padding in `w`). -/
theorem claim_C2 (A : ForceArgs) (st : ForceState) (mol e : Nat)
    (he : A.window_size = 2 ^ e) (hmol : mol < A.n_mol)
    (hcN : A.central_idx mol < A.N) (hdisj : A.BodiesDisjoint) :
    ((gpu_rigid_force A st).d_torque (A.central_idx mol) =
      (let T := ∑ k in (Finset.range (A.mol_len mol)).filter
          (fun k => A.member mol k ≠ A.central_idx mol),
        (vec3of (st.d_net_torque (A.member mol k)) +
          cross (A.rel_pos mol k) (vec3of (st.d_net_force (A.member mol k))));
       ⟨T.x, T.y, T.z, 0⟩)) ∧
    (A.mol_len mol = 2 → A.member mol 1 ≠ A.central_idx mol →
      vec3of (st.d_net_torque (A.member mol 1)) = 0 →
      (gpu_rigid_force A st).d_torque (A.central_idx mol) =
        (let rxf := cross (A.rel_pos mol 1) (vec3of (st.d_net_force (A.member mol 1)));
         ⟨rxf.x, rxf.y, rxf.z, 0⟩)) := by
  have htot : A.bodyTorqueTotal st mol =
      ∑ k in (Finset.range (A.mol_len mol)).filter
          (fun k => A.member mol k ≠ A.central_idx mol),
        (vec3of (st.d_net_torque (A.member mol k)) +
          cross (A.rel_pos mol k) (vec3of (st.d_net_force (A.member mol k)))) := by
    rw [A.bodyTorqueTotal_eq st mol e he hcN, Finset.sum_filter]
    refine Finset.sum_congr rfl fun k hk => ?_
    have hklt : k < A.mol_len mol := Finset.mem_range.mp hk
    unfold ForceArgs.torqueContrib ForceArgs.contributes
    by_cases hne : A.member mol k ≠ A.central_idx mol
    · rw [if_pos ⟨hklt, hne⟩, if_pos hne]
      rfl
    · rw [if_neg (by tauto), if_neg hne]
  have hmain : (gpu_rigid_force A st).d_torque (A.central_idx mol) =
      (let T := ∑ k in (Finset.range (A.mol_len mol)).filter
          (fun k => A.member mol k ≠ A.central_idx mol),
        (vec3of (st.d_net_torque (A.member mol k)) +
          cross (A.rel_pos mol k) (vec3of (st.d_net_force (A.member mol k))));
       (⟨T.x, T.y, T.z, 0⟩ : Vec4)) := by
    rw [(gpu_rigid_force_central A st mol hmol hdisj).2, htot]
  refine ⟨hmain, fun hlen hne ht0 => ?_⟩
  rw [hmain]
  have hfilter : (Finset.range (A.mol_len mol)).filter
      (fun k => A.member mol k ≠ A.central_idx mol) = {1} := by
    rw [hlen]
    ext k
    simp only [Finset.mem_filter, Finset.mem_range, Finset.mem_singleton]
    constructor
    · rintro ⟨hk2, hkne⟩
      interval_cases k
      · exact absurd rfl hkne
      · rfl
    · rintro rfl
      exact ⟨by omega, hne⟩
  rw [hfilter]
  simp only [Finset.sum_singleton, ht0, zero_add]

/-- Witness for C2 on the concrete two-particle body: constituent at offset
`(1,0,0)` (identity orientation), force `(2,3,4)`, zero constituent torque
⇒ central torque `(1,0,0) × (2,3,4) = (0,-4,3)`. -/
theorem claim_C2_witness :
    (testForceArgs.window_size = 2 ^ 0 ∧ 0 < testForceArgs.n_mol ∧
      testForceArgs.central_idx 0 < testForceArgs.N ∧ testForceArgs.BodiesDisjoint ∧
      testForceArgs.mol_len 0 = 2 ∧ testForceArgs.member 0 1 ≠ testForceArgs.central_idx 0 ∧
      vec3of (testForceState.d_net_torque (testForceArgs.member 0 1)) = 0) ∧
    (gpu_rigid_force testForceArgs testForceState).d_torque (testForceArgs.central_idx 0) =
      (let rxf := cross (testForceArgs.rel_pos 0 1)
          (vec3of (testForceState.d_net_force (testForceArgs.member 0 1)));
       ⟨rxf.x, rxf.y, rxf.z, 0⟩) :=
  ⟨⟨by decide, by decide, by decide, by decide, by decide, by decide, by decide⟩,
   (claim_C2 testForceArgs testForceState 0 0 (by decide) (by decide) (by decide)
     (by decide)).2 (by decide) (by decide) (by decide)⟩

open ForceArgs in
/-- C6 (as stated) is false on the code: when a body's central resolves
outside the valid local range, the final write-out of
`gpu_rigid_force_sliding_kernel` checks only `mol_idx[m] != NO_BODY`, so it
still stores the (zero) reduced sums to `d_force`/`d_torque` at the
central's resolved index.  Here the output slot, initialised to a nonzero
sentinel, changes. -/
theorem claim_C6_counterexample :
    (gpu_rigid_force skipForceArgs skipForceState).d_force (skipForceArgs.central_idx 0) ≠
      skipForceState.d_force (skipForceArgs.central_idx 0) := by
  decide

open ForceArgs in
/-- C6 (amended): for a body whose central resolves outside the valid local
range, no constituent quantity is folded or zeroed — every member's net
force and net torque are unchanged by the pass — but the kernel still
writes the tree-reduced totals, which are exactly zero because the gather
was skipped, to the force and torque slots at the central's resolved
index. -/
theorem claim_C6_amended (A : ForceArgs) (st : ForceState) (mol : Nat)
    (hmol : mol < A.n_mol) (hcN : A.N ≤ A.central_idx mol) (hdisj : A.BodiesDisjoint) :
    (∀ k, k < A.mol_len mol ∨ k = 0 →
      (gpu_rigid_force A st).d_net_force (A.member mol k) =
          st.d_net_force (A.member mol k) ∧
      (gpu_rigid_force A st).d_net_torque (A.member mol k) =
          st.d_net_torque (A.member mol k)) ∧
    (gpu_rigid_force A st).d_force (A.central_idx mol) = 0 ∧
    (gpu_rigid_force A st).d_torque (A.central_idx mol) = 0 := by
  have hnc : ¬ A.central_idx mol < A.N := by omega
  refine ⟨fun k hk => ?_, ?_, ?_⟩
  · unfold gpu_rigid_force
    rw [range_split A.n_mol mol hmol, List.foldl_append, List.foldl_cons]
    set st0 : ForceState :=
      { st with
        d_force := fun i => if i < A.N then 0 else st.d_force i
        d_torque := fun i => if i < A.N then 0 else st.d_torque i } with hst0
    set stPre := (List.range mol).foldl (rigid_force_body A) st0 with hstPre
    have hpre : ∀ m ∈ List.range mol, m < A.n_mol ∧ m ≠ mol := by
      intro m hm
      have := List.mem_range.mp hm
      omega
    have htail : ∀ m ∈ (List.range (A.n_mol - (mol + 1))).map (fun j => (mol + 1) + j),
        m < A.n_mol ∧ m ≠ mol := by
      intro m hm
      obtain ⟨j, hj, rfl⟩ := List.mem_map.mp hm
      have := List.mem_range.mp hj
      omega
    have hPre := fold_net_preserve A mol hmol hdisj (List.range mol) st0 hpre k hk
    have hStep1 : (rigid_force_body A stPre mol).d_net_force (A.member mol k) =
        stPre.d_net_force (A.member mol k) :=
      force_body_net_force_preserve A stPre mol _ (by tauto)
    have hStep2 : (rigid_force_body A stPre mol).d_net_torque (A.member mol k) =
        stPre.d_net_torque (A.member mol k) :=
      force_body_net_torque_preserve A stPre mol _ (by tauto)
    have hTail := fold_net_preserve A mol hmol hdisj _
      (rigid_force_body A stPre mol) htail k hk
    exact ⟨hTail.1.trans (hStep1.trans hPre.1), hTail.2.trans (hStep2.trans hPre.2)⟩
  · rw [(gpu_rigid_force_central A st mol hmol hdisj).1,
        A.bodyForceTotal_skip st mol hnc]
  · rw [(gpu_rigid_force_central A st mol hmol hdisj).2,
        A.bodyTorqueTotal_skip st mol hnc]
    rfl

/-- Witness for the amended C6 on the concrete skipped body: nets unchanged,
zero written at the central's out-of-range slot. -/
theorem claim_C6_amended_witness :
    (0 < skipForceArgs.n_mol ∧ skipForceArgs.N ≤ skipForceArgs.central_idx 0 ∧
      skipForceArgs.BodiesDisjoint) ∧
    (gpu_rigid_force skipForceArgs skipForceState).d_force (skipForceArgs.central_idx 0) = 0 :=
  ⟨⟨by decide, by decide, by decide⟩,
   (claim_C6_amended skipForceArgs skipForceState 0 (by decide) (by decide)
     (by decide)).2.1⟩

open ForceArgs in
/-- C7: after a force-reduction pass with `zero_force` set, every folded
constituent's net force (including the potential-energy component `w`)
reads exactly zero; every folded constituent's net torque reads exactly
zero whether or not `zero_force` is set; and a second pass on the resulting
state with unchanged inputs writes exactly zero force and torque onto every
central. -/
theorem claim_C7 (A : ForceArgs) (st : ForceState) (e : Nat)
    (he : A.window_size = 2 ^ e) :
    (A.zero_force = true → ∀ mol, mol < A.n_mol → A.central_idx mol < A.N →
      ∀ i, A.folded mol i → (gpu_rigid_force A st).d_net_force i = 0) ∧
    (∀ mol, mol < A.n_mol → A.central_idx mol < A.N →
      ∀ i, A.folded mol i → (gpu_rigid_force A st).d_net_torque i = 0) ∧
    (A.zero_force = true → ∀ mol, mol < A.n_mol →
      (gpu_rigid_force A (gpu_rigid_force A st)).d_force (A.central_idx mol) = 0 ∧
      (gpu_rigid_force A (gpu_rigid_force A st)).d_torque (A.central_idx mol) = 0) := by
  have hws : 0 < A.window_size := by rw [he]; positivity
  refine ⟨fun hz mol hmol hcN i hf => ?_, fun mol hmol hcN i hf => ?_, fun hz mol hmol => ?_⟩
  · exact (gpu_rigid_force_zeroes A st mol i hmol hcN hf).1 hz
  · exact (gpu_rigid_force_zeroes A st mol i hmol hcN hf).2
  · have hcl : NetsCleared A (gpu_rigid_force A st) := by
      intro m hm hc i hi
      exact ⟨(gpu_rigid_force_zeroes A st m i hm hc hi).1 hz,
             (gpu_rigid_force_zeroes A st m i hm hc hi).2⟩
    unfold gpu_rigid_force
    set st1 := gpu_rigid_force A st with hst1
    set st10 : ForceState :=
      { st1 with
        d_force := fun i => if i < A.N then 0 else st1.d_force i
        d_torque := fun i => if i < A.N then 0 else st1.d_torque i } with hst10
    have hcl0 : NetsCleared A st10 := hcl
    exact fold_out_zero_central A hws mol hmol (List.range A.n_mol) st10 hcl0
      (List.mem_range.mpr hmol)

/-- Witness for C7 on the concrete two-particle body with `zero_force`:
the folded constituent reads zero afterwards and the second pass writes
zero onto the central. -/
theorem claim_C7_witness :
    (testForceArgs.window_size = 2 ^ 0 ∧ testForceArgs.zero_force = true ∧
      0 < testForceArgs.n_mol ∧ testForceArgs.central_idx 0 < testForceArgs.N ∧
      testForceArgs.folded 0 1) ∧
    (gpu_rigid_force testForceArgs testForceState).d_net_force 1 = 0 ∧
    (gpu_rigid_force testForceArgs
        (gpu_rigid_force testForceArgs testForceState)).d_force
      (testForceArgs.central_idx 0) = 0 :=
  ⟨⟨by decide, by decide, by decide, by decide, by decide⟩,
   (claim_C7 testForceArgs testForceState 0 (by decide)).1 (by decide) 0 (by decide)
     (by decide) 1 (by decide),
   ((claim_C7 testForceArgs testForceState 0 (by decide)).2.2 (by decide) 0
     (by decide)).1⟩

namespace VirialArgs

lemma vmol_len_le_windows (A : VirialArgs) (mol : Nat) (hws : 0 < A.window_size) :
    A.mol_len mol ≤ A.n_windows mol * A.window_size := by
  unfold n_windows
  have h1 := Nat.div_add_mod' (A.mol_len mol) A.window_size
  have h2 := Nat.mod_lt (A.mol_len mol) hws
  have h3 : (A.mol_len mol / A.window_size + 1) * A.window_size =
      A.mol_len mol / A.window_size * A.window_size + A.window_size := by
    rw [Nat.succ_mul]
  omega

lemma virialContrib_zero (A : VirialArgs) (st : VirialState) (mol k : Nat)
    (h : A.mol_len mol ≤ k) : A.virialContrib st mol k = 0 := by
  unfold virialContrib contributes
  rw [if_neg]
  omega

/-- With a power-of-two window, the reduced body virial is the exact sum of
the per-slot corrected contributions (gather active). -/
lemma bodyVirialTotal_eq (A : VirialArgs) (st : VirialState) (mol e : Nat)
    (he : A.window_size = 2 ^ e) (hc : A.central_idx mol < A.N) :
    A.bodyVirialTotal st mol =
      ∑ k in Finset.range (A.mol_len mol), A.virialContrib st mol k := by
  unfold bodyVirialTotal
  rw [show A.window_size / 2 = 2 ^ e / 2 from by rw [he], treeCombine_pow_sum]
  have hlane : ∀ t, A.laneVirial st mol t =
      ∑ s in Finset.range (A.n_windows mol),
        A.virialContrib st mol (s * A.window_size + t) := by
    intro t; unfold laneVirial; rw [if_pos hc]
  calc (∑ t in Finset.range (2 ^ e), A.laneVirial st mol t)
      = ∑ t in Finset.range A.window_size, ∑ s in Finset.range (A.n_windows mol),
          A.virialContrib st mol (s * A.window_size + t) := by
        rw [← he]; exact Finset.sum_congr rfl fun t _ => hlane t
    _ = ∑ k in Finset.range (A.mol_len mol), A.virialContrib st mol k :=
        sum_windows _ _ _ _
          (A.vmol_len_le_windows mol (by rw [he]; positivity))
          (A.virialContrib_zero st mol)

/-- A skipped body (central outside the local range) reduces to zero. -/
lemma bodyVirialTotal_skip (A : VirialArgs) (st : VirialState) (mol : Nat)
    (hc : ¬ A.central_idx mol < A.N) : A.bodyVirialTotal st mol = 0 := by
  unfold bodyVirialTotal
  have hlane : A.laneVirial st mol = fun _ => (0 : Virial6) := by
    funext t; unfold laneVirial; rw [if_neg hc]
  rw [hlane, treeCombine_zero_fun (0 : Virial6) (add_zero 0)]

/-- The reduced body virial reads only the net force and the six net-virial
rows of the body's own contributing member slots. -/
lemma bodyVirialTotal_congr (A : VirialArgs) (st1 st2 : VirialState) (mol : Nat)
    (hf : ∀ k, A.contributes mol k →
      st1.d_net_force (A.member mol k) = st2.d_net_force (A.member mol k))
    (hv : ∀ k, A.contributes mol k → ∀ j, j < 6 →
      st1.d_net_virial (j * A.net_virial_pitch + A.member mol k) =
        st2.d_net_virial (j * A.net_virial_pitch + A.member mol k)) :
    A.bodyVirialTotal st1 mol = A.bodyVirialTotal st2 mol := by
  unfold bodyVirialTotal
  have hlane : A.laneVirial st1 mol = A.laneVirial st2 mol := by
    funext t
    unfold laneVirial
    by_cases hc : A.central_idx mol < A.N
    · rw [if_pos hc, if_pos hc]
      refine Finset.sum_congr rfl fun s _ => ?_
      unfold virialContrib
      by_cases hk : A.contributes mol (s * A.window_size + t)
      · rw [if_pos hk, if_pos hk]
        dsimp only
        rw [hf _ hk, hv _ hk 0 (by omega), hv _ hk 1 (by omega), hv _ hk 2 (by omega),
            hv _ hk 3 (by omega), hv _ hk 4 (by omega), hv _ hk 5 (by omega)]
      · rw [if_neg hk, if_neg hk]
    · rw [if_neg hc, if_neg hc]
  rw [hlane]

/-- A folded constituent occupies a member slot `k < mol_len` distinct from
the central index. -/
lemma vfolded_elim (A : VirialArgs) (mol i : Nat) (h : A.folded mol i) :
    ∃ k, k < A.mol_len mol ∧ A.member mol k = i ∧ A.member mol k ≠ A.central_idx mol := by
  obtain ⟨s, _, t, _, ⟨hk, hne⟩, hi⟩ := h
  exact ⟨s * A.window_size + t, hk, hi, hne⟩

/-- Every contributing member slot is folded when the window size is
positive. -/
lemma vfolded_intro (A : VirialArgs) (mol k : Nat) (hws : 0 < A.window_size)
    (hc : A.contributes mol k) : A.folded mol (A.member mol k) := by
  refine ⟨k / A.window_size, ?_, k % A.window_size, Nat.mod_lt k hws, ?_, ?_⟩
  · unfold n_windows
    have : k / A.window_size ≤ A.mol_len mol / A.window_size :=
      Nat.div_le_div_right (le_of_lt hc.1)
    omega
  · rw [Nat.div_add_mod']; exact hc
  · rw [Nat.div_add_mod']

/-- Disjoint bodies across molecule indices (as for the force kernel). -/
def BodiesDisjoint (A : VirialArgs) : Prop :=
  ∀ m1, m1 < A.n_mol → ∀ m2, m2 < A.n_mol → m1 ≠ m2 →
    A.central_idx m1 ≠ A.central_idx m2 ∧
    (∀ k, k < A.mol_len m2 → A.member m2 k ≠ A.central_idx m1) ∧
    (∀ k, k < A.mol_len m1 → A.member m1 k ≠ A.central_idx m2) ∧
    (∀ k1, k1 < A.mol_len m1 → ∀ k2, k2 < A.mol_len m2 →
      A.member m1 k1 ≠ A.member m2 k2)

instance (A : VirialArgs) : Decidable (A.BodiesDisjoint) := by
  unfold BodiesDisjoint; infer_instance

/-- The row layouts are wide enough for the particle indices in play: every
member slot of every body fits inside a net-virial row, and every central
fits inside an output-virial row (so distinct flat slots decode uniquely). -/
def IndexOK (A : VirialArgs) : Prop :=
  (∀ m, m < A.n_mol → ∀ k, k < max (A.mol_len m) 1 →
    A.member m k < A.net_virial_pitch) ∧
  (∀ m, m < A.n_mol → A.central_idx m < A.virial_pitch)

instance (A : VirialArgs) : Decidable (A.IndexOK) := by
  unfold IndexOK; infer_instance

end VirialArgs

section VirialStepLemmas

open VirialArgs

variable (A : VirialArgs) (st : VirialState) (mol : Nat)

/-- The write-out of one body stores the six reduced components at
`j*virial_pitch + central_idx[m]`. -/
lemma virial_body_out (hm : mol < A.n_mol) (hvp : 0 < A.virial_pitch) :
    (rigid_virial_body A st mol).d_virial (0 * A.virial_pitch + A.central_idx mol) =
        (A.bodyVirialTotal st mol).xx ∧
    (rigid_virial_body A st mol).d_virial (1 * A.virial_pitch + A.central_idx mol) =
        (A.bodyVirialTotal st mol).xy ∧
    (rigid_virial_body A st mol).d_virial (2 * A.virial_pitch + A.central_idx mol) =
        (A.bodyVirialTotal st mol).xz ∧
    (rigid_virial_body A st mol).d_virial (3 * A.virial_pitch + A.central_idx mol) =
        (A.bodyVirialTotal st mol).yy ∧
    (rigid_virial_body A st mol).d_virial (4 * A.virial_pitch + A.central_idx mol) =
        (A.bodyVirialTotal st mol).yz ∧
    (rigid_virial_body A st mol).d_virial (5 * A.virial_pitch + A.central_idx mol) =
        (A.bodyVirialTotal st mol).zz := by
  unfold rigid_virial_body
  rw [if_pos hm]
  simp only []
  refine ⟨?_, ?_, ?_, ?_, ?_, ?_⟩
  · rw [if_neg (by omega), if_neg (by omega), if_neg (by omega), if_neg (by omega),
        if_neg (by omega)]
    simp
  · rw [if_neg (by omega), if_neg (by omega), if_neg (by omega), if_neg (by omega)]
    simp
  · rw [if_neg (by omega), if_neg (by omega), if_neg (by omega)]
    simp
  · rw [if_neg (by omega), if_neg (by omega)]
    simp
  · rw [if_neg (by omega)]
    simp
  · simp

lemma virial_body_out_other (l : Nat)
    (h : ∀ j, j < 6 → l ≠ j * A.virial_pitch + A.central_idx mol) :
    (rigid_virial_body A st mol).d_virial l = st.d_virial l := by
  unfold rigid_virial_body
  by_cases hm : mol < A.n_mol
  · rw [if_pos hm]
    simp only []
    rw [if_neg (h 5 (by omega)), if_neg (h 4 (by omega)), if_neg (h 3 (by omega)),
        if_neg (h 2 (by omega)), if_neg (h 1 (by omega)), if_neg (h 0 (by omega))]
  · rw [if_neg hm]

lemma virial_body_net_force_preserve (i : Nat)
    (h : ¬ (A.central_idx mol < A.N ∧ A.folded mol i)) :
    (rigid_virial_body A st mol).d_net_force i = st.d_net_force i := by
  unfold rigid_virial_body
  by_cases hm : mol < A.n_mol
  · rw [if_pos hm]; simp only []; rw [if_neg h]
  · rw [if_neg hm]

lemma virial_body_net_virial_preserve (l : Nat)
    (h : ¬ (A.central_idx mol < A.N ∧ A.zeroedVirialSlot mol l)) :
    (rigid_virial_body A st mol).d_net_virial l = st.d_net_virial l := by
  unfold rigid_virial_body
  by_cases hm : mol < A.n_mol
  · rw [if_pos hm]; simp only []; rw [if_neg h]
  · rw [if_neg hm]

lemma virial_body_net_force_cases (i : Nat) :
    (rigid_virial_body A st mol).d_net_force i = st.d_net_force i ∨
      (rigid_virial_body A st mol).d_net_force i = 0 := by
  unfold rigid_virial_body
  by_cases hm : mol < A.n_mol
  · rw [if_pos hm]
    by_cases h : A.central_idx mol < A.N ∧ A.folded mol i
    · right; simp only []; rw [if_pos h]
    · left; simp only []; rw [if_neg h]
  · left; rw [if_neg hm]

lemma virial_body_net_virial_cases (l : Nat) :
    (rigid_virial_body A st mol).d_net_virial l = st.d_net_virial l ∨
      (rigid_virial_body A st mol).d_net_virial l = 0 := by
  unfold rigid_virial_body
  by_cases hm : mol < A.n_mol
  · rw [if_pos hm]
    by_cases h : A.central_idx mol < A.N ∧ A.zeroedVirialSlot mol l
    · right; simp only []; rw [if_pos h]
    · left; simp only []; rw [if_neg h]
  · left; rw [if_neg hm]

lemma virial_body_net_force_zero (i : Nat) (hm : mol < A.n_mol)
    (h : A.central_idx mol < A.N ∧ A.folded mol i) :
    (rigid_virial_body A st mol).d_net_force i = 0 := by
  unfold rigid_virial_body
  rw [if_pos hm]
  simp only []
  rw [if_pos h]

lemma virial_body_net_virial_zero (l : Nat) (hm : mol < A.n_mol)
    (h : A.central_idx mol < A.N ∧ A.zeroedVirialSlot mol l) :
    (rigid_virial_body A st mol).d_net_virial l = 0 := by
  unfold rigid_virial_body
  rw [if_pos hm]
  simp only []
  rw [if_pos h]

end VirialStepLemmas

section VirialFoldLemmas

open VirialArgs

/-- Distinct row/offset pairs give distinct flat indices when the offsets
fit inside a row. -/
lemma flat_ne (np x y j j' : Nat) (hx : x < np) (hy : y < np)
    (hj : j < 6) (hj' : j' < 6) (hne : x ≠ y) : j * np + x ≠ j' * np + y := by
  interval_cases j <;> interval_cases j' <;> omega

/-- A body `m` distinct from `mol` never folds any member slot of `mol`. -/
lemma vnot_folded_of_other (A : VirialArgs) (m mol k : Nat)
    (hdisj : A.BodiesDisjoint) (hm : m < A.n_mol) (hmol : mol < A.n_mol)
    (hne : m ≠ mol) (hkm : k < A.mol_len mol ∨ k = 0) :
    ¬ A.folded m (A.member mol k) := by
  intro hf
  obtain ⟨k', hk', hmem, hnc⟩ := A.vfolded_elim m _ hf
  obtain ⟨hc, h1, h2, h3⟩ := hdisj m hm mol hmol hne
  rcases hkm with hlt | h0
  · exact h3 k' hk' k hlt hmem
  · subst h0
    exact h2 k' hk' hmem

/-- Folding a list of other bodies preserves the net force at `mol`'s member
slots and the net virial at their six flat rows. -/
lemma vfold_net_preserve (A : VirialArgs) (mol : Nat) (hmol : mol < A.n_mol)
    (hdisj : A.BodiesDisjoint) (hidx : A.IndexOK) :
    ∀ (l : List Nat) (st : VirialState), (∀ m ∈ l, m < A.n_mol ∧ m ≠ mol) →
      ∀ k, (k < A.mol_len mol ∨ k = 0) →
        (l.foldl (rigid_virial_body A) st).d_net_force (A.member mol k) =
            st.d_net_force (A.member mol k) ∧
        ∀ j, j < 6 →
          (l.foldl (rigid_virial_body A) st).d_net_virial
              (j * A.net_virial_pitch + A.member mol k) =
            st.d_net_virial (j * A.net_virial_pitch + A.member mol k) := by
  intro l
  induction l with
  | nil => intro st _ k _; exact ⟨rfl, fun _ _ => rfl⟩
  | cons m tl ih =>
    intro st hl k hk
    obtain ⟨hmN, hmne⟩ := hl m (List.mem_cons_self m tl)
    have htl : ∀ m' ∈ tl, m' < A.n_mol ∧ m' ≠ mol := fun m' hm' =>
      hl m' (List.mem_cons_of_mem m hm')
    have hnf : ¬ A.folded m (A.member mol k) :=
      vnot_folded_of_other A m mol k hdisj hmN hmol hmne hk
    have h1 : (rigid_virial_body A st m).d_net_force (A.member mol k) =
        st.d_net_force (A.member mol k) :=
      virial_body_net_force_preserve A st m _ (by tauto)
    have h2 : ∀ j, j < 6 →
        (rigid_virial_body A st m).d_net_virial
            (j * A.net_virial_pitch + A.member mol k) =
          st.d_net_virial (j * A.net_virial_pitch + A.member mol k) := by
      intro j hj
      refine virial_body_net_virial_preserve A st m _ ?_
      rintro ⟨-, hslot⟩
      obtain ⟨j', hj', i', hfold', hl'⟩ := (A.zeroedVirialSlot_iff m _).mp hslot
      obtain ⟨k', hk', hmem', hnc'⟩ := A.vfolded_elim m i' hfold'
      have hxk : A.member mol k < A.net_virial_pitch :=
        hidx.1 mol hmol k (by omega)
      have hxk' : i' < A.net_virial_pitch := by
        rw [← hmem']
        exact hidx.1 m hmN k' (by omega)
      have hne' : A.member mol k ≠ i' := by
        obtain ⟨hc, hA1, hA2, hA3⟩ := hdisj m hmN mol hmol hmne
        rw [← hmem']
        rcases hk with hlt | h0
        · exact fun h => hA3 k' hk' k hlt h.symm
        · subst h0
          exact fun h => hA2 k' hk' h.symm
      exact flat_ne A.net_virial_pitch _ _ j j' hxk hxk' hj hj' hne' hl'
    rw [List.foldl_cons]
    rcases ih (rigid_virial_body A st m) htl k hk with ⟨ihf, ihv⟩
    exact ⟨ihf.trans h1, fun j hj => (ihv j hj).trans (h2 j hj)⟩

/-- Folding a list of other bodies preserves the six output-virial slots of
body `mol`'s central. -/
lemma vfold_out_preserve (A : VirialArgs) (mol : Nat) (hmol : mol < A.n_mol)
    (hdisj : A.BodiesDisjoint) (hidx : A.IndexOK) :
    ∀ (l : List Nat) (st : VirialState), (∀ m ∈ l, m < A.n_mol ∧ m ≠ mol) →
      ∀ j, j < 6 →
        (l.foldl (rigid_virial_body A) st).d_virial
            (j * A.virial_pitch + A.central_idx mol) =
          st.d_virial (j * A.virial_pitch + A.central_idx mol) := by
  intro l
  induction l with
  | nil => intro st _ j _; rfl
  | cons m tl ih =>
    intro st hl j hj
    obtain ⟨hmN, hmne⟩ := hl m (List.mem_cons_self m tl)
    have htl : ∀ m' ∈ tl, m' < A.n_mol ∧ m' ≠ mol := fun m' hm' =>
      hl m' (List.mem_cons_of_mem m hm')
    have hcc : A.central_idx mol ≠ A.central_idx m :=
      (hdisj mol hmol m hmN (Ne.symm hmne)).1
    have h1 : (rigid_virial_body A st m).d_virial
        (j * A.virial_pitch + A.central_idx mol) =
        st.d_virial (j * A.virial_pitch + A.central_idx mol) := by
      refine virial_body_out_other A st m _ fun j' hj' => ?_
      exact flat_ne A.virial_pitch _ _ j j' (hidx.2 mol hmol) (hidx.2 m hmN) hj hj' hcc
    rw [List.foldl_cons, ih (rigid_virial_body A st m) htl j hj, h1]

/-- Master lemma for the virial pass: the pass writes the six tree-reduced
virial components of body `mol` — computed from the pre-pass net arrays —
to the flat output rows at the central's index. -/
lemma gpu_rigid_virial_central (A : VirialArgs) (st : VirialState) (mol : Nat)
    (hmol : mol < A.n_mol) (hdisj : A.BodiesDisjoint) (hidx : A.IndexOK) :
    (gpu_rigid_virial A st).d_virial (0 * A.virial_pitch + A.central_idx mol) =
        (A.bodyVirialTotal st mol).xx ∧
    (gpu_rigid_virial A st).d_virial (1 * A.virial_pitch + A.central_idx mol) =
        (A.bodyVirialTotal st mol).xy ∧
    (gpu_rigid_virial A st).d_virial (2 * A.virial_pitch + A.central_idx mol) =
        (A.bodyVirialTotal st mol).xz ∧
    (gpu_rigid_virial A st).d_virial (3 * A.virial_pitch + A.central_idx mol) =
        (A.bodyVirialTotal st mol).yy ∧
    (gpu_rigid_virial A st).d_virial (4 * A.virial_pitch + A.central_idx mol) =
        (A.bodyVirialTotal st mol).yz ∧
    (gpu_rigid_virial A st).d_virial (5 * A.virial_pitch + A.central_idx mol) =
        (A.bodyVirialTotal st mol).zz := by
  have hvp : 0 < A.virial_pitch := by
    have := hidx.2 mol hmol
    omega
  unfold gpu_rigid_virial
  set st0 : VirialState :=
    { st with d_virial := fun l => if l < 6 * A.virial_pitch then 0 else st.d_virial l }
    with hst0
  rw [range_split A.n_mol mol hmol, List.foldl_append, List.foldl_cons]
  set stPre := (List.range mol).foldl (rigid_virial_body A) st0 with hstPre
  have hpre : ∀ m ∈ List.range mol, m < A.n_mol ∧ m ≠ mol := by
    intro m hm
    have := List.mem_range.mp hm
    omega
  have htail : ∀ m ∈ (List.range (A.n_mol - (mol + 1))).map (fun j => (mol + 1) + j),
      m < A.n_mol ∧ m ≠ mol := by
    intro m hm
    obtain ⟨j, hj, rfl⟩ := List.mem_map.mp hm
    have := List.mem_range.mp hj
    omega
  have hnets := vfold_net_preserve A mol hmol hdisj hidx (List.range mol) st0 hpre
  have htot : A.bodyVirialTotal stPre mol = A.bodyVirialTotal st mol := by
    refine A.bodyVirialTotal_congr stPre st mol ?_ ?_
    · intro k hk
      exact (hnets k (Or.inl hk.1)).1
    · intro k hk j hj
      exact (hnets k (Or.inl hk.1)).2 j hj
  have hstep := virial_body_out A stPre mol hmol hvp
  have htailpres := vfold_out_preserve A mol hmol hdisj hidx _
    (rigid_virial_body A stPre mol) htail
  refine ⟨?_, ?_, ?_, ?_, ?_, ?_⟩
  · rw [htailpres 0 (by omega), hstep.1, htot]
  · rw [htailpres 1 (by omega), hstep.2.1, htot]
  · rw [htailpres 2 (by omega), hstep.2.2.1, htot]
  · rw [htailpres 3 (by omega), hstep.2.2.2.1, htot]
  · rw [htailpres 4 (by omega), hstep.2.2.2.2.1, htot]
  · rw [htailpres 5 (by omega), hstep.2.2.2.2.2, htot]

/-- The virial pass only ever overwrites net slots with zero, so zero
stays zero. -/
lemma vfold_net_zero_stays (A : VirialArgs) :
    ∀ (l : List Nat) (st : VirialState) (i : Nat),
      (st.d_net_force i = 0 → (l.foldl (rigid_virial_body A) st).d_net_force i = 0) ∧
      (st.d_net_virial i = 0 → (l.foldl (rigid_virial_body A) st).d_net_virial i = 0) := by
  intro l
  induction l with
  | nil => intro st i; exact ⟨id, id⟩
  | cons m tl ih =>
    intro st i
    rw [List.foldl_cons]
    constructor
    · intro h0
      refine (ih _ i).1 ?_
      rcases virial_body_net_force_cases A st m i with h | h <;> rw [h]
      exact h0
    · intro h0
      refine (ih _ i).2 ?_
      rcases virial_body_net_virial_cases A st m i with h | h <;> rw [h]
      exact h0

/-- After the virial pass, each folded constituent of a gathered body reads
zero net force and zero net virial in all six rows. -/
lemma gpu_rigid_virial_zeroes (A : VirialArgs) (st : VirialState) (mol i : Nat)
    (hmol : mol < A.n_mol) (hcN : A.central_idx mol < A.N) (hf : A.folded mol i) :
    (gpu_rigid_virial A st).d_net_force i = 0 ∧
    ∀ j, j < 6 →
      (gpu_rigid_virial A st).d_net_virial (j * A.net_virial_pitch + i) = 0 := by
  unfold gpu_rigid_virial
  rw [range_split A.n_mol mol hmol, List.foldl_append, List.foldl_cons]
  set stPre := (List.range mol).foldl (rigid_virial_body A) _ with hstPre
  constructor
  · refine (vfold_net_zero_stays A _ _ i).1 ?_
    exact virial_body_net_force_zero A stPre mol i hmol ⟨hcN, hf⟩
  · intro j hj
    refine (vfold_net_zero_stays A _ _ _).2 ?_
    refine virial_body_net_virial_zero A stPre mol _ hmol ⟨hcN, ?_⟩
    exact (A.zeroedVirialSlot_iff mol _).mpr ⟨j, hj, i, hf, rfl⟩

end VirialFoldLemmas

/-- Concrete single-constituent body (central at index 0, constituent at
index 1) for the virial-pass claims; both virial rows have pitch 2. -/
def testVirialArgs : VirialArgs where
  d_molecule_len := fun _ => 2
  d_molecule_list := fun n => if n = 0 then 0 else 1
  d_tag := fun i => i
  d_rtag := fun i => i
  molecule_indexer := fun mol k => 2 * mol + k
  d_postype := fun _ => ⟨⟨0, 0, 0⟩, 0⟩
  d_orientation := fun _ => quatOne
  body_indexer := fun _ l => l
  d_body_pos := fun _ => ⟨1, 0, 0⟩
  d_body_orientation := fun _ => quatOne
  n_mol := 1
  N := 2
  net_virial_pitch := 2
  virial_pitch := 2
  window_size := 1

/-- Constituent net force `(2,3,4)`; pairwise-distinct net-virial entries
(`value = flat index`); sentinel output slots. -/
def testVirialState : VirialState where
  d_virial := fun _ => 9
  d_net_force := fun i => if i = 1 then ⟨2, 3, 4, 5⟩ else 0
  d_net_virial := fun l => (l : ℚ)

open VirialArgs in
/-- C3: for a single-constituent body gathered by the virial pass, the six
accumulated components at the central's output rows equal the constituent's
original net virial minus `f ⊗ r` (`r` the template offset rotated by the
central's current orientation), exactly and component-wise, and the
constituent's net virial and net force read exactly zero after the pass. -/
theorem claim_C3 (A : VirialArgs) (st : VirialState) (mol e : Nat)
    (he : A.window_size = 2 ^ e) (hmol : mol < A.n_mol)
    (hcN : A.central_idx mol < A.N) (hdisj : A.BodiesDisjoint) (hidx : A.IndexOK)
    (hlen : A.mol_len mol = 2) (hm1 : A.member mol 1 ≠ A.central_idx mol) :
    ((gpu_rigid_virial A st).d_virial (0 * A.virial_pitch + A.central_idx mol) =
        st.d_net_virial (0 * A.net_virial_pitch + A.member mol 1) -
          (st.d_net_force (A.member mol 1)).x * (A.rel_pos mol 1).x ∧
     (gpu_rigid_virial A st).d_virial (1 * A.virial_pitch + A.central_idx mol) =
        st.d_net_virial (1 * A.net_virial_pitch + A.member mol 1) -
          (st.d_net_force (A.member mol 1)).x * (A.rel_pos mol 1).y ∧
     (gpu_rigid_virial A st).d_virial (2 * A.virial_pitch + A.central_idx mol) =
        st.d_net_virial (2 * A.net_virial_pitch + A.member mol 1) -
          (st.d_net_force (A.member mol 1)).x * (A.rel_pos mol 1).z ∧
     (gpu_rigid_virial A st).d_virial (3 * A.virial_pitch + A.central_idx mol) =
        st.d_net_virial (3 * A.net_virial_pitch + A.member mol 1) -
          (st.d_net_force (A.member mol 1)).y * (A.rel_pos mol 1).y ∧
     (gpu_rigid_virial A st).d_virial (4 * A.virial_pitch + A.central_idx mol) =
        st.d_net_virial (4 * A.net_virial_pitch + A.member mol 1) -
          (st.d_net_force (A.member mol 1)).y * (A.rel_pos mol 1).z ∧
     (gpu_rigid_virial A st).d_virial (5 * A.virial_pitch + A.central_idx mol) =
        st.d_net_virial (5 * A.net_virial_pitch + A.member mol 1) -
          (st.d_net_force (A.member mol 1)).z * (A.rel_pos mol 1).z) ∧
    (gpu_rigid_virial A st).d_net_force (A.member mol 1) = 0 ∧
    (∀ j, j < 6 →
      (gpu_rigid_virial A st).d_net_virial
        (j * A.net_virial_pitch + A.member mol 1) = 0) := by
  have hcontrib1 : A.contributes mol 1 := ⟨by omega, hm1⟩
  have htot : A.bodyVirialTotal st mol = A.virialContrib st mol 1 := by
    rw [A.bodyVirialTotal_eq st mol e he hcN, hlen, Finset.sum_range_succ,
        Finset.sum_range_succ, Finset.sum_range_zero]
    have h0 : A.virialContrib st mol 0 = 0 := by
      unfold virialContrib
      rw [if_neg]
      intro h
      exact h.2 rfl
    rw [h0, zero_add, zero_add]
  have hc1 : A.virialContrib st mol 1 =
      ⟨st.d_net_virial (0 * A.net_virial_pitch + A.member mol 1) -
          (st.d_net_force (A.member mol 1)).x * (A.rel_pos mol 1).x,
       st.d_net_virial (1 * A.net_virial_pitch + A.member mol 1) -
          (st.d_net_force (A.member mol 1)).x * (A.rel_pos mol 1).y,
       st.d_net_virial (2 * A.net_virial_pitch + A.member mol 1) -
          (st.d_net_force (A.member mol 1)).x * (A.rel_pos mol 1).z,
       st.d_net_virial (3 * A.net_virial_pitch + A.member mol 1) -
          (st.d_net_force (A.member mol 1)).y * (A.rel_pos mol 1).y,
       st.d_net_virial (4 * A.net_virial_pitch + A.member mol 1) -
          (st.d_net_force (A.member mol 1)).y * (A.rel_pos mol 1).z,
       st.d_net_virial (5 * A.net_virial_pitch + A.member mol 1) -
          (st.d_net_force (A.member mol 1)).z * (A.rel_pos mol 1).z⟩ := by
    unfold virialContrib
    rw [if_pos hcontrib1]
  have hp := gpu_rigid_virial_central A st mol hmol hdisj hidx
  have hfold : A.folded mol (A.member mol 1) :=
    A.vfolded_intro mol 1 (by rw [he]; positivity) hcontrib1
  have hz := gpu_rigid_virial_zeroes A st mol (A.member mol 1) hmol hcN hfold
  refine ⟨⟨?_, ?_, ?_, ?_, ?_, ?_⟩, hz.1, hz.2⟩
  · rw [hp.1, htot, hc1]
  · rw [hp.2.1, htot, hc1]
  · rw [hp.2.2.1, htot, hc1]
  · rw [hp.2.2.2.1, htot, hc1]
  · rw [hp.2.2.2.2.1, htot, hc1]
  · rw [hp.2.2.2.2.2, htot, hc1]

/-- Witness for C3 on the concrete single-constituent body: accumulated
`xx` component equals `V_xx − f.x·r.x` and the constituent reads zero. -/
theorem claim_C3_witness :
    (testVirialArgs.window_size = 2 ^ 0 ∧ 0 < testVirialArgs.n_mol ∧
      testVirialArgs.central_idx 0 < testVirialArgs.N ∧
      testVirialArgs.BodiesDisjoint ∧ testVirialArgs.IndexOK ∧
      testVirialArgs.mol_len 0 = 2 ∧
      testVirialArgs.member 0 1 ≠ testVirialArgs.central_idx 0) ∧
    (gpu_rigid_virial testVirialArgs testVirialState).d_virial
        (0 * testVirialArgs.virial_pitch + testVirialArgs.central_idx 0) =
      testVirialState.d_net_virial
          (0 * testVirialArgs.net_virial_pitch + testVirialArgs.member 0 1) -
        (testVirialState.d_net_force (testVirialArgs.member 0 1)).x *
          (testVirialArgs.rel_pos 0 1).x ∧
    (gpu_rigid_virial testVirialArgs testVirialState).d_net_force
        (testVirialArgs.member 0 1) = 0 :=
  ⟨⟨by decide, by decide, by decide, by decide, by decide, by decide, by decide⟩,
   ((claim_C3 testVirialArgs testVirialState 0 0 (by decide) (by decide) (by decide)
      (by decide) (by decide) (by decide) (by decide)).1).1,
   (claim_C3 testVirialArgs testVirialState 0 0 (by decide) (by decide) (by decide)
      (by decide) (by decide) (by decide) (by decide)).2.1⟩

section ResetLemmas

open ForceArgs VirialArgs

/-- Folding bodies never touches a force/torque slot that is no body's
central index. -/
lemma fold_force_untouched (A : ForceArgs) (i : Nat) :
    ∀ (l : List Nat) (st : ForceState), (∀ m ∈ l, i ≠ A.central_idx m) →
      (l.foldl (rigid_force_body A) st).d_force i = st.d_force i ∧
      (l.foldl (rigid_force_body A) st).d_torque i = st.d_torque i := by
  intro l
  induction l with
  | nil => intro st _; exact ⟨rfl, rfl⟩
  | cons m tl ih =>
    intro st hl
    rw [List.foldl_cons]
    have hm := hl m (List.mem_cons_self m tl)
    have htl : ∀ m' ∈ tl, i ≠ A.central_idx m' := fun m' hm' =>
      hl m' (List.mem_cons_of_mem m hm')
    rcases ih (rigid_force_body A st m) htl with ⟨h1, h2⟩
    exact ⟨h1.trans (force_body_d_force_other A st m i hm),
           h2.trans (force_body_d_torque_other A st m i hm)⟩

/-- Folding bodies never touches a flat virial slot outside every body's six
central output rows. -/
lemma fold_virial_untouched (A : VirialArgs) (l : Nat) :
    ∀ (ms : List Nat) (st : VirialState),
      (∀ m ∈ ms, ∀ j, j < 6 → l ≠ j * A.virial_pitch + A.central_idx m) →
      (ms.foldl (rigid_virial_body A) st).d_virial l = st.d_virial l := by
  intro ms
  induction ms with
  | nil => intro st _; rfl
  | cons m tl ih =>
    intro st hl
    rw [List.foldl_cons]
    have hm := hl m (List.mem_cons_self m tl)
    have htl : ∀ m' ∈ tl, ∀ j, j < 6 → l ≠ j * A.virial_pitch + A.central_idx m' :=
      fun m' hm' => hl m' (List.mem_cons_of_mem m hm')
    exact (ih (rigid_virial_body A st m) htl).trans
      (virial_body_out_other A st m l hm)

/-- Two force-pass runs with identical net inputs write identical outputs:
the initial contents of the output arrays never flow into any written
value. -/
lemma fold_force_pair (A : ForceArgs) :
    ∀ (l : List Nat) (st1 st2 : ForceState),
      st1.d_net_force = st2.d_net_force → st1.d_net_torque = st2.d_net_torque →
      (∀ i, i < A.N → st1.d_force i = st2.d_force i ∧ st1.d_torque i = st2.d_torque i) →
      (l.foldl (rigid_force_body A) st1).d_net_force =
          (l.foldl (rigid_force_body A) st2).d_net_force ∧
      (l.foldl (rigid_force_body A) st1).d_net_torque =
          (l.foldl (rigid_force_body A) st2).d_net_torque ∧
      ∀ i, i < A.N →
        (l.foldl (rigid_force_body A) st1).d_force i =
            (l.foldl (rigid_force_body A) st2).d_force i ∧
        (l.foldl (rigid_force_body A) st1).d_torque i =
            (l.foldl (rigid_force_body A) st2).d_torque i := by
  intro l
  induction l with
  | nil => intro st1 st2 h1 h2 h3; exact ⟨h1, h2, h3⟩
  | cons m tl ih =>
    intro st1 st2 h1 h2 h3
    rw [List.foldl_cons, List.foldl_cons]
    have hforce : A.bodyForceTotal st1 m = A.bodyForceTotal st2 m :=
      A.bodyForceTotal_congr st1 st2 m fun k _ => by rw [h1]
    have htorque : A.bodyTorqueTotal st1 m = A.bodyTorqueTotal st2 m :=
      A.bodyTorqueTotal_congr st1 st2 m (fun k _ => by rw [h1]) (fun k _ => by rw [h2])
    refine ih (rigid_force_body A st1 m) (rigid_force_body A st2 m) ?_ ?_ ?_
    · funext i
      unfold rigid_force_body
      by_cases hm : m < A.n_mol
      · rw [if_pos hm, if_pos hm]
        simp only []
        rw [h1]
      · rw [if_neg hm, if_neg hm, h1]
    · funext i
      unfold rigid_force_body
      by_cases hm : m < A.n_mol
      · rw [if_pos hm, if_pos hm]
        simp only []
        rw [h2]
      · rw [if_neg hm, if_neg hm, h2]
    · intro i hi
      constructor
      · by_cases hic : i = A.central_idx m ∧ m < A.n_mol
        · obtain ⟨rfl, hm⟩ := hic
          rw [force_body_d_force_central A st1 m hm,
              force_body_d_force_central A st2 m hm, hforce]
        · rcases Decidable.not_and_iff_or_not.mp hic with h | h
          · rw [force_body_d_force_other A st1 m i h,
                force_body_d_force_other A st2 m i h]
            exact (h3 i hi).1
          · unfold rigid_force_body
            rw [if_neg h, if_neg h]
            exact (h3 i hi).1
      · by_cases hic : i = A.central_idx m ∧ m < A.n_mol
        · obtain ⟨rfl, hm⟩ := hic
          rw [force_body_d_torque_central A st1 m hm,
              force_body_d_torque_central A st2 m hm, htorque]
        · rcases Decidable.not_and_iff_or_not.mp hic with h | h
          · rw [force_body_d_torque_other A st1 m i h,
                force_body_d_torque_other A st2 m i h]
            exact (h3 i hi).2
          · unfold rigid_force_body
            rw [if_neg h, if_neg h]
            exact (h3 i hi).2

/-- Two virial-pass runs with identical net inputs write identical outputs
at every flat slot of the reset region. -/
lemma fold_virial_pair (A : VirialArgs) :
    ∀ (ms : List Nat) (st1 st2 : VirialState),
      st1.d_net_force = st2.d_net_force → st1.d_net_virial = st2.d_net_virial →
      (∀ l, l < 6 * A.virial_pitch → st1.d_virial l = st2.d_virial l) →
      (ms.foldl (rigid_virial_body A) st1).d_net_force =
          (ms.foldl (rigid_virial_body A) st2).d_net_force ∧
      (ms.foldl (rigid_virial_body A) st1).d_net_virial =
          (ms.foldl (rigid_virial_body A) st2).d_net_virial ∧
      ∀ l, l < 6 * A.virial_pitch →
        (ms.foldl (rigid_virial_body A) st1).d_virial l =
            (ms.foldl (rigid_virial_body A) st2).d_virial l := by
  intro ms
  induction ms with
  | nil => intro st1 st2 h1 h2 h3; exact ⟨h1, h2, h3⟩
  | cons m tl ih =>
    intro st1 st2 h1 h2 h3
    rw [List.foldl_cons, List.foldl_cons]
    have htot : A.bodyVirialTotal st1 m = A.bodyVirialTotal st2 m :=
      A.bodyVirialTotal_congr st1 st2 m (fun k _ => by rw [h1])
        (fun k _ j _ => by rw [h2])
    refine ih (rigid_virial_body A st1 m) (rigid_virial_body A st2 m) ?_ ?_ ?_
    · funext i
      unfold rigid_virial_body
      by_cases hm : m < A.n_mol
      · rw [if_pos hm, if_pos hm]
        simp only []
        rw [h1]
      · rw [if_neg hm, if_neg hm, h1]
    · funext i
      unfold rigid_virial_body
      by_cases hm : m < A.n_mol
      · rw [if_pos hm, if_pos hm]
        simp only []
        rw [h2]
      · rw [if_neg hm, if_neg hm, h2]
    · intro l hl
      unfold rigid_virial_body
      by_cases hm : m < A.n_mol
      · rw [if_pos hm, if_pos hm]
        simp only []
        rw [htot]
        split_ifs <;> first | rfl | exact h3 l hl
      · rw [if_neg hm, if_neg hm]
        exact h3 l hl

end ResetLemmas

open ForceArgs VirialArgs in
/-- C10: both host wrappers reset their whole output arrays before the
kernels accumulate — `gpu_rigid_force` memsets all `N` force and torque
slots, `gpu_rigid_virial` memsets all `6 × virial_pitch` flat virial slots
— so after a pass every output slot that is not a central slot of some
processed body reads exactly zero (free particles included), and the
outputs are overwritten, never accumulated into: the passes' outputs are
independent of the initial contents of the output arrays. -/
theorem claim_C10 (A : ForceArgs) (st : ForceState)
    (AV : VirialArgs) (stV : VirialState) :
    (∀ i, i < A.N → (∀ m, m < A.n_mol → A.central_idx m ≠ i) →
      (gpu_rigid_force A st).d_force i = 0 ∧
      (gpu_rigid_force A st).d_torque i = 0) ∧
    (∀ l, l < 6 * AV.virial_pitch →
      (∀ m, m < AV.n_mol → ∀ j, j < 6 → l ≠ j * AV.virial_pitch + AV.central_idx m) →
      (gpu_rigid_virial AV stV).d_virial l = 0) ∧
    (∀ g h, ∀ i, i < A.N →
      (gpu_rigid_force A { st with d_force := g, d_torque := h }).d_force i =
          (gpu_rigid_force A st).d_force i ∧
      (gpu_rigid_force A { st with d_force := g, d_torque := h }).d_torque i =
          (gpu_rigid_force A st).d_torque i) ∧
    (∀ g, ∀ l, l < 6 * AV.virial_pitch →
      (gpu_rigid_virial AV { stV with d_virial := g }).d_virial l =
          (gpu_rigid_virial AV stV).d_virial l) := by
  have hforce_eq : ∀ st' : ForceState, gpu_rigid_force A st' =
      (List.range A.n_mol).foldl (rigid_force_body A)
        { st' with
          d_force := fun i => if i < A.N then 0 else st'.d_force i
          d_torque := fun i => if i < A.N then 0 else st'.d_torque i } :=
    fun _ => rfl
  have hvirial_eq : ∀ st' : VirialState, gpu_rigid_virial AV st' =
      (List.range AV.n_mol).foldl (rigid_virial_body AV)
        { st' with
          d_virial := fun l => if l < 6 * AV.virial_pitch then 0 else st'.d_virial l } :=
    fun _ => rfl
  refine ⟨fun i hi hnc => ?_, fun l hl hnc => ?_, fun g h i hi => ?_, fun g l hl => ?_⟩
  · rw [hforce_eq]
    have hlist : ∀ m ∈ List.range A.n_mol, i ≠ A.central_idx m := by
      intro m hm
      exact (hnc m (List.mem_range.mp hm)).symm
    rcases fold_force_untouched A i (List.range A.n_mol) _ hlist with ⟨h1, h2⟩
    rw [h1, h2]
    constructor <;> simp [hi]
  · rw [hvirial_eq]
    have hlist : ∀ m ∈ List.range AV.n_mol, ∀ j, j < 6 →
        l ≠ j * AV.virial_pitch + AV.central_idx m := by
      intro m hm
      exact hnc m (List.mem_range.mp hm)
    rw [fold_virial_untouched AV l (List.range AV.n_mol) _ hlist]
    simp [hl]
  · rw [hforce_eq, hforce_eq]
    refine (fold_force_pair A (List.range A.n_mol) _ _ ?_ ?_ ?_).2.2 i hi
    · rfl
    · rfl
    · intro i' hi'
      constructor <;> simp [hi']
  · rw [hvirial_eq, hvirial_eq]
    refine (fold_virial_pair AV (List.range AV.n_mol) _ _ ?_ ?_ ?_).2.2 l hl
    · rfl
    · rfl
    · intro l' hl'
      simp [hl']

/-- Witness for C10 on the concrete fixtures: the non-central slot 1 of the
force pass and flat slot 1 of the virial pass read zero, and replacing the
initial output arrays does not change the force output at slot 0. -/
theorem claim_C10_witness :
    ((1 < testForceArgs.N ∧ ∀ m, m < testForceArgs.n_mol → testForceArgs.central_idx m ≠ 1) ∧
     (1 < 6 * testVirialArgs.virial_pitch ∧
      ∀ m, m < testVirialArgs.n_mol → ∀ j, j < 6 →
        1 ≠ j * testVirialArgs.virial_pitch + testVirialArgs.central_idx m)) ∧
    (gpu_rigid_force testForceArgs testForceState).d_force 1 = 0 ∧
    (gpu_rigid_virial testVirialArgs testVirialState).d_virial 1 = 0 ∧
    (gpu_rigid_force testForceArgs
        { testForceState with d_force := fun _ => ⟨7, 7, 7, 7⟩,
                              d_torque := fun _ => ⟨8, 8, 8, 8⟩ }).d_force 0 =
      (gpu_rigid_force testForceArgs testForceState).d_force 0 :=
  ⟨⟨⟨by decide, by decide⟩, ⟨by decide, by decide⟩⟩,
   ((claim_C10 testForceArgs testForceState testVirialArgs testVirialState).1 1
      (by decide) (by decide)).1,
   (claim_C10 testForceArgs testForceState testVirialArgs testVirialState).2.1 1
      (by decide) (by decide),
   ((claim_C10 testForceArgs testForceState testVirialArgs testVirialState).2.2.1
      (fun _ => ⟨7, 7, 7, 7⟩) (fun _ => ⟨8, 8, 8, 8⟩) 0 (by decide)).1⟩

section UpdateHelpers

/-- The central's storage index resolved from particle `idx`'s body tag:
`central_idx = d_rtag[d_body[idx]]`. -/
def centralOf (A : UpdateArgs) (idx : Nat) : Nat := A.d_rtag (A.d_body idx)

/-- The template local offset fetched for `idx`:
`d_body_pos[body_indexer(body_type, tag - central_tag - 1)]`. -/
def localPosOf (A : UpdateArgs) (st : UpdateState) (idx : Nat) : Vec3 :=
  A.d_body_pos (A.body_indexer (st.d_postype (centralOf A idx)).typ
    (usub32 (usub32 (A.d_tag idx) (A.d_body idx)) 1))

/-- The wrapped position/image pair the spreader computes for `idx`: central
position plus the offset rotated by the central's current orientation,
wrapped with the central's image. -/
def spreadOf (A : UpdateArgs) (st : UpdateState) (idx : Nat) : Vec3 × Int3 :=
  A.wrap ((st.d_postype (centralOf A idx)).pos +
      rotate (st.d_orientation (centralOf A idx)) (localPosOf A st idx))
    (st.d_image (centralOf A idx))

/-- The conditions under which the spreader thread for `idx` reaches the
store: all five early-return guards fail and the central dereference is in
range. -/
lemma update_outcome_write (A : UpdateArgs) (st : UpdateState) (idx : Nat)
    (h1 : idx < A.N + A.n_ghost)
    (h2 : A.d_body idx ≠ NO_BODY)
    (h3 : ¬ (A.remote = false ∧ A.N ≤ centralOf A idx))
    (h4 : ¬ (centralOf A idx = NOT_LOCAL ∧ A.N ≤ idx))
    (h5 : idx ≠ centralOf A idx)
    (h6 : centralOf A idx < A.N + A.n_ghost) :
    update_outcome A st idx =
      UpdateOutcome.write ⟨(spreadOf A st idx).1, (st.d_postype idx).typ⟩
        (spreadOf A st idx).2 := by
  unfold centralOf at h3 h4 h5 h6
  unfold update_outcome
  rw [if_neg (by omega), if_neg h2]
  dsimp only
  rw [if_neg h3, if_neg h4, if_neg h5, if_neg (by omega)]
  rfl

end UpdateHelpers

section UpdateFixtures

/-- Concrete spreader configuration: two local particles, the central at
index 0 (tag 5), one constituent at index 1 (tag 6) with template offset
`(1,0,0)` and a non-identity template local orientation; identity wrap. -/
def testUpdateArgs : UpdateArgs where
  N := 2
  n_ghost := 0
  d_body := fun i => if i ≤ 1 then 5 else NO_BODY
  d_rtag := fun t => if t = 5 then 0 else NOT_LOCAL
  d_tag := fun i => i + 5
  body_indexer := fun _ l => l
  d_body_pos := fun _ => ⟨1, 0, 0⟩
  d_body_orientation := fun _ => ⟨0, ⟨1, 0, 0⟩⟩
  wrap := fun p i => (p, i)
  remote := false

/-- Central at the origin with identity orientation; constituent stores a
stale position `(9,9,9)`, its own type `7`, and identity orientation. -/
def testUpdateState : UpdateState where
  d_postype := fun i => if i = 0 then ⟨⟨0, 0, 0⟩, 3⟩ else ⟨⟨9, 9, 9⟩, 7⟩
  d_orientation := fun _ => quatOne
  d_image := fun _ => ⟨0, 0, 0⟩

/-- Spreader configuration in remote mode whose (locally owned) particle 0
has a body tag whose central resolves nowhere: `d_rtag` returns
`NOT_LOCAL`. -/
def lostUpdateArgs : UpdateArgs where
  N := 1
  n_ghost := 0
  d_body := fun _ => 5
  d_rtag := fun _ => NOT_LOCAL
  d_tag := fun i => i
  body_indexer := fun _ l => l
  d_body_pos := fun _ => ⟨1, 0, 0⟩
  d_body_orientation := fun _ => quatOne
  wrap := fun p i => (p, i)
  remote := true

/-- Arbitrary particle state for the unresolvable-central scenario. -/
def lostUpdateState : UpdateState where
  d_postype := fun _ => ⟨⟨4, 4, 4⟩, 2⟩
  d_orientation := fun _ => quatOne
  d_image := fun _ => ⟨0, 0, 0⟩

end UpdateFixtures

/-- C4 is the spec's intent but the code drops the store: the kernel
computes `updated_orientation = orientation * local_orientation` and then
never writes `d_orientation[idx]` (only `d_postype[idx]` and
`d_image[idx]` are stored).  On the concrete fixture the constituent is
processed — its position is rewritten — yet its stored orientation stays
the stale identity instead of the expected
`orientation(c) * local_orient`; and in general the pass leaves the whole
orientation array untouched. -/
theorem claim_C4 :
    (gpu_update_composite testUpdateArgs testUpdateState).d_postype 1 ≠
        testUpdateState.d_postype 1 ∧
    (gpu_update_composite testUpdateArgs testUpdateState).d_orientation 1 =
        testUpdateState.d_orientation 1 ∧
    (gpu_update_composite testUpdateArgs testUpdateState).d_orientation 1 ≠
        quatMul (testUpdateState.d_orientation 0)
          (testUpdateArgs.d_body_orientation
            (testUpdateArgs.body_indexer (testUpdateState.d_postype 0).typ 0)) ∧
    (∀ (B : UpdateArgs) (s : UpdateState),
      (gpu_update_composite B s).d_orientation = s.d_orientation) := by
  have hw := update_outcome_write testUpdateArgs testUpdateState 1 (by decide)
    (by decide) (by decide) (by decide) (by decide) (by decide)
  have hpos : (gpu_update_composite testUpdateArgs testUpdateState).d_postype 1 =
      ⟨(spreadOf testUpdateArgs testUpdateState 1).1,
       (testUpdateState.d_postype 1).typ⟩ := by
    show (match update_outcome testUpdateArgs testUpdateState 1 with
      | UpdateOutcome.write pt _ => pt
      | _ => testUpdateState.d_postype 1) = _
    rw [hw]
  have hspread : (spreadOf testUpdateArgs testUpdateState 1).1 = ⟨1, 0, 0⟩ := by
    unfold spreadOf localPosOf centralOf testUpdateArgs testUpdateState
    norm_num [usub32, NO_BODY, NOT_LOCAL, rotate_one]
    ext <;> norm_num
  refine ⟨?_, rfl, ?_, fun B s => rfl⟩
  · rw [hpos]
    intro h
    have h1 := congrArg (fun p => p.pos.x) h
    rw [hspread] at h1
    norm_num [testUpdateState] at h1
  · show quatOne ≠ _
    intro h
    have h1 := congrArg Quat.s h
    norm_num [quatOne, quatMul, testUpdateState, testUpdateArgs, dot3] at h1

/-- C5 (as stated) is false on the code: in remote mode
(`remote = true`), the guard `central_idx == NOT_LOCAL && idx >= N`
protects only ghost particles, so a locally-owned particle (`idx < N`)
whose central resolves nowhere falls through to the dereference of
`d_postype[central_idx]` at `central_idx = NOT_LOCAL`, outside the valid
`N + n_ghost` storage range. -/
theorem claim_C5_counterexample :
    update_outcome lostUpdateArgs lostUpdateState 0 = UpdateOutcome.fault := by
  decide

/-- C5 (amended): a particle whose body tag's central resolves to
`NOT_LOCAL` is skipped untouched — with no access outside the valid
storage range — provided the pass is in local-only mode (`remote = false`)
or the particle is a ghost (`idx ≥ N`); when `remote` is set, a locally
owned particle with an unresolvable central is not protected. -/
theorem claim_C5_amended (A : UpdateArgs) (st : UpdateState) (idx : Nat)
    (hN : A.N ≤ NOT_LOCAL)
    (hr : A.d_rtag (A.d_body idx) = NOT_LOCAL)
    (hor : A.remote = false ∨ A.N ≤ idx) :
    update_outcome A st idx = UpdateOutcome.skip ∧
    (gpu_update_composite A st).d_postype idx = st.d_postype idx ∧
    (gpu_update_composite A st).d_orientation idx = st.d_orientation idx ∧
    (gpu_update_composite A st).d_image idx = st.d_image idx := by
  have hskip : update_outcome A st idx = UpdateOutcome.skip := by
    unfold update_outcome
    by_cases h1 : A.N + A.n_ghost ≤ idx
    · rw [if_pos h1]
    · rw [if_neg h1]
      by_cases h2 : A.d_body idx = NO_BODY
      · rw [if_pos h2]
      · rw [if_neg h2]
        rcases hor with hrem | hidx
        · rw [if_pos ⟨hrem, by rw [hr]; exact hN⟩]
        · by_cases h3 : A.remote = false ∧ A.N ≤ A.d_rtag (A.d_body idx)
          · rw [if_pos h3]
          · rw [if_neg h3, if_pos ⟨hr, hidx⟩]
  refine ⟨hskip, ?_, rfl, ?_⟩
  · show (match update_outcome A st idx with
      | UpdateOutcome.write pt _ => pt
      | _ => st.d_postype idx) = st.d_postype idx
    rw [hskip]
  · show (match update_outcome A st idx with
      | UpdateOutcome.write _ img => img
      | _ => st.d_image idx) = st.d_image idx
    rw [hskip]

/-- Witness for the amended C5: ghost-side skip in remote mode on the
unresolvable-central fixture (particle 1 is outside local range). -/
theorem claim_C5_amended_witness :
    (lostUpdateArgs.N ≤ NOT_LOCAL ∧
      lostUpdateArgs.d_rtag (lostUpdateArgs.d_body 1) = NOT_LOCAL ∧
      (lostUpdateArgs.remote = false ∨ lostUpdateArgs.N ≤ 1)) ∧
    update_outcome lostUpdateArgs lostUpdateState 1 = UpdateOutcome.skip ∧
    (gpu_update_composite lostUpdateArgs lostUpdateState).d_postype 1 =
      lostUpdateState.d_postype 1 :=
  ⟨⟨by decide, by decide, Or.inr (by decide)⟩,
   (claim_C5_amended lostUpdateArgs lostUpdateState 1 (by decide) (by decide)
      (Or.inr (by decide))).1,
   (claim_C5_amended lostUpdateArgs lostUpdateState 1 (by decide) (by decide)
      (Or.inr (by decide))).2.1⟩

/-- C8: for every constituent the spreader processes, the stored position is
the central's position plus the template offset rotated by the central's
current orientation, wrapped by the box with the central's image; the new
image flag is the wrap-updated central image; the particle's own type is
preserved in the position record; and with identity central orientation the
offset enters unrotated. -/
theorem claim_C8 (A : UpdateArgs) (st : UpdateState) (idx : Nat)
    (h1 : idx < A.N + A.n_ghost)
    (h2 : A.d_body idx ≠ NO_BODY)
    (h3 : ¬ (A.remote = false ∧ A.N ≤ centralOf A idx))
    (h4 : ¬ (centralOf A idx = NOT_LOCAL ∧ A.N ≤ idx))
    (h5 : idx ≠ centralOf A idx)
    (h6 : centralOf A idx < A.N + A.n_ghost) :
    (gpu_update_composite A st).d_postype idx =
        ⟨(spreadOf A st idx).1, (st.d_postype idx).typ⟩ ∧
    (gpu_update_composite A st).d_image idx = (spreadOf A st idx).2 ∧
    (st.d_orientation (centralOf A idx) = quatOne →
      (gpu_update_composite A st).d_postype idx =
        ⟨(A.wrap ((st.d_postype (centralOf A idx)).pos + localPosOf A st idx)
            (st.d_image (centralOf A idx))).1,
         (st.d_postype idx).typ⟩) := by
  have hw := update_outcome_write A st idx h1 h2 h3 h4 h5 h6
  have hpos : (gpu_update_composite A st).d_postype idx =
      ⟨(spreadOf A st idx).1, (st.d_postype idx).typ⟩ := by
    show (match update_outcome A st idx with
      | UpdateOutcome.write pt _ => pt
      | _ => st.d_postype idx) = _
    rw [hw]
  have himg : (gpu_update_composite A st).d_image idx = (spreadOf A st idx).2 := by
    show (match update_outcome A st idx with
      | UpdateOutcome.write _ img => img
      | _ => st.d_image idx) = _
    rw [hw]
  refine ⟨hpos, himg, fun hone => ?_⟩
  rw [hpos]
  unfold spreadOf
  rw [hone, rotate_one]

/-- Witness for C8 on the concrete fixture: identity central orientation and
identity wrap put the constituent at `central + (1,0,0) = (1,0,0)` with its
own type 7 preserved. -/
theorem claim_C8_witness :
    (1 < testUpdateArgs.N + testUpdateArgs.n_ghost ∧
      testUpdateArgs.d_body 1 ≠ NO_BODY ∧
      ¬ (testUpdateArgs.remote = false ∧ testUpdateArgs.N ≤ centralOf testUpdateArgs 1) ∧
      ¬ (centralOf testUpdateArgs 1 = NOT_LOCAL ∧ testUpdateArgs.N ≤ 1) ∧
      1 ≠ centralOf testUpdateArgs 1 ∧
      centralOf testUpdateArgs 1 < testUpdateArgs.N + testUpdateArgs.n_ghost ∧
      testUpdateState.d_orientation (centralOf testUpdateArgs 1) = quatOne) ∧
    (gpu_update_composite testUpdateArgs testUpdateState).d_postype 1 =
      ⟨(testUpdateArgs.wrap
          ((testUpdateState.d_postype (centralOf testUpdateArgs 1)).pos +
            localPosOf testUpdateArgs testUpdateState 1)
          (testUpdateState.d_image (centralOf testUpdateArgs 1))).1,
       (testUpdateState.d_postype 1).typ⟩ :=
  ⟨⟨by decide, by decide, by decide, by decide, by decide, by decide, by decide⟩,
   (claim_C8 testUpdateArgs testUpdateState 1 (by decide) (by decide) (by decide)
      (by decide) (by decide) (by decide)).2.2 (by decide)⟩

/-- C9: the spreader never modifies a particle whose body tag is the
`NO_BODY` sentinel, and never modifies a central particle (one whose own
index equals the index resolved from its body tag): position, orientation
and image are all unchanged. -/
theorem claim_C9 (A : UpdateArgs) (st : UpdateState) (idx : Nat)
    (h : A.d_body idx = NO_BODY ∨ idx = A.d_rtag (A.d_body idx)) :
    (gpu_update_composite A st).d_postype idx = st.d_postype idx ∧
    (gpu_update_composite A st).d_orientation idx = st.d_orientation idx ∧
    (gpu_update_composite A st).d_image idx = st.d_image idx := by
  have hskip : update_outcome A st idx = UpdateOutcome.skip := by
    unfold update_outcome
    by_cases h1 : A.N + A.n_ghost ≤ idx
    · rw [if_pos h1]
    · rw [if_neg h1]
      rcases h with hnb | hcentral
      · rw [if_pos hnb]
      · by_cases h2 : A.d_body idx = NO_BODY
        · rw [if_pos h2]
        · rw [if_neg h2]
          by_cases h3 : A.remote = false ∧ A.N ≤ A.d_rtag (A.d_body idx)
          · rw [if_pos h3]
          · rw [if_neg h3]
            by_cases h4 : A.d_rtag (A.d_body idx) = NOT_LOCAL ∧ A.N ≤ idx
            · rw [if_pos h4]
            · rw [if_neg h4, if_pos hcentral]
  refine ⟨?_, rfl, ?_⟩
  · show (match update_outcome A st idx with
      | UpdateOutcome.write pt _ => pt
      | _ => st.d_postype idx) = st.d_postype idx
    rw [hskip]
  · show (match update_outcome A st idx with
      | UpdateOutcome.write _ img => img
      | _ => st.d_image idx) = st.d_image idx
    rw [hskip]

/-- Witness for C9: particle 0 of the concrete fixture is its own body's
central; the pass leaves its record untouched. -/
theorem claim_C9_witness :
    (testUpdateArgs.d_body 0 = NO_BODY ∨
      0 = testUpdateArgs.d_rtag (testUpdateArgs.d_body 0)) ∧
    (gpu_update_composite testUpdateArgs testUpdateState).d_postype 0 =
        testUpdateState.d_postype 0 ∧
    (gpu_update_composite testUpdateArgs testUpdateState).d_image 0 =
        testUpdateState.d_image 0 :=
  ⟨Or.inr (by decide),
   (claim_C9 testUpdateArgs testUpdateState 0 (Or.inr (by decide))).1,
   (claim_C9 testUpdateArgs testUpdateState 0 (Or.inr (by decide))).2.2⟩

end ForceCompositeGPU
